import Mathlib

/-!
Verification of the multi-table OpenFlow pipeline (`src/udatapath/pipeline.c`)
of the of14softswitch datapath, against its natural-language specification.

The development shallowly embeds the pipeline's data model and handlers:
pure C functions become Lean functions; the in-place mutation of the
pipeline's table array becomes explicit state passing; the external
collaborators named in the spec's section 6 (flow-table lookup and flow-mod
application, action validation, message cloning) become function parameters
("oracles") of the handlers, so each theorem quantifies over every possible
behaviour of those collaborators.  Machine integers are modelled as `Nat`
(the C code performs no overflowing arithmetic on the paths modelled here;
the one place where 32-bit width matters, the LPM mask scan, reads the mask
bit by bit for exactly 32 iterations, which the embedding reproduces).
-/

namespace Of14

/-! ## Protocol constants (OpenFlow 1.3/1.4 numeric codes, `openflow.h`) -/

/-- Instruction type: Goto-Table. -/
def OFPIT_GOTO_TABLE : Nat := 1
/-- Instruction type: Write-Metadata. -/
def OFPIT_WRITE_METADATA : Nat := 2
/-- Instruction type: Write-Actions. -/
def OFPIT_WRITE_ACTIONS : Nat := 3
/-- Instruction type: Apply-Actions. -/
def OFPIT_APPLY_ACTIONS : Nat := 4
/-- Instruction type: Clear-Actions. -/
def OFPIT_CLEAR_ACTIONS : Nat := 5
/-- Instruction type: Meter. -/
def OFPIT_METER : Nat := 6
/-- Instruction type: Experimenter. -/
def OFPIT_EXPERIMENTER : Nat := 0xFFFF

/-- Flow-mod command: add. -/
def OFPFC_ADD : Nat := 0
/-- Flow-mod command: modify. -/
def OFPFC_MODIFY : Nat := 1
/-- Flow-mod command: modify-strict. -/
def OFPFC_MODIFY_STRICT : Nat := 2
/-- Flow-mod command: delete. -/
def OFPFC_DELETE : Nat := 3
/-- Flow-mod command: delete-strict. -/
def OFPFC_DELETE_STRICT : Nat := 4

/-- Controller role: slave. -/
def OFPCR_ROLE_SLAVE : Nat := 3
/-- Controller role: master. -/
def OFPCR_ROLE_MASTER : Nat := 2

/-- Error type: bad request. -/
def OFPET_BAD_REQUEST : Nat := 1
/-- Error type: bad match. -/
def OFPET_BAD_MATCH : Nat := 4
/-- Error type: flow-mod failed. -/
def OFPET_FLOW_MOD_FAILED : Nat := 5
/-- Error type: table-features failed. -/
def OFPET_TABLE_FEATURES_FAILED : Nat := 13

/-- Bad-request code: sender is slave. -/
def OFPBRC_IS_SLAVE : Nat := 10
/-- Bad-request code: multipart buffer overflow. -/
def OFPBRC_MULTIPART_BUFFER_OVERFLOW : Nat := 13
/-- Bad-match code: bad network address mask. -/
def OFPBMC_BAD_NW_ADDR_MASK : Nat := 4
/-- Flow-mod-failed code: bad table id. -/
def OFPFMFC_BAD_TABLE_ID : Nat := 2
/-- Flow-mod-failed code: bad priority. -/
def OFPFMFC_BAD_PRIORITY : Nat := 9
/-- Table-features-failed code: bad argument. -/
def OFPTFFC_BAD_ARGUMENT : Nat := 4

/-- Packet-in reason: table miss. -/
def OFPR_TABLE_MISS : Nat := 0
/-- Packet-in reason: apply-actions action. -/
def OFPR_APPLY_ACTION : Nat := 1
/-- Packet-in reason: invalid TTL. -/
def OFPR_INVALID_TTL : Nat := 2
/-- Packet-in reason: action set. -/
def OFPR_ACTION_SET : Nat := 3

/-- Datapath config flag: send packets with invalid TTL to the controller. -/
def OFPC_INVALID_TTL_TO_CONTROLLER : Nat := 4

/-- Multipart request flag: more fragments follow. -/
def OFPMPF_REQ_MORE : Nat := 1
/-- Multipart reply flag: more reply messages follow. -/
def OFPMPF_REPLY_MORE : Nat := 1

/-- Table-mod property type: vacancy. -/
def OFPTMPT_VACANCY : Nat := 3
/-- Table config bit: eviction. -/
def OFPTC_EVICTION : Nat := 4
/-- Table config bit: vacancy events. -/
def OFPTC_VACANCY_EVENTS : Nat := 8

/-- OXM header for exact Ethernet destination. -/
def OXM_OF_ETH_DST : Nat := 0x80000606
/-- OXM header for exact Ethernet source. -/
def OXM_OF_ETH_SRC : Nat := 0x80000806
/-- OXM header for exact IPv4 destination. -/
def OXM_OF_IPV4_DST : Nat := 0x80001804
/-- OXM header for masked IPv4 destination. -/
def OXM_OF_IPV4_DST_W : Nat := 0x80001908

/-- `OFP_NO_BUFFER`: the "no buffered packet" sentinel. -/
def NO_BUFFER : Nat := 0xffffffff

/-- `ofl_error(type, code)` from oflib: a 32-bit error word, type in the
high half, code in the low half; `0` is success. -/
def ofl_error (t c : Nat) : Nat := t <<< 16 ||| c

/-! ## Instructions and the flow-mod instruction sort (`inst_compare`) -/

/-- An `ofl_instruction` of the flow-mod message.  Each constructor carries
the payload the pipeline reads from it; the numeric wire type is given by
`OflInstruction.itype`. -/
inductive OflInstruction where
  | gotoTable (table_id : Nat)
  | writeMetadata (metadata metadata_mask : Nat)
  | writeActions (actions : List Nat)
  | applyActions (actions : List Nat)
  | clearActions
  | meter (meter_id : Nat)
  | experimenter (exp_id : Nat)
deriving DecidableEq, Inhabited

/-- The OpenFlow wire type of an instruction (`inst->type` in the source). -/
def OflInstruction.itype : OflInstruction → Nat
  | gotoTable _ => OFPIT_GOTO_TABLE
  | writeMetadata _ _ => OFPIT_WRITE_METADATA
  | writeActions _ => OFPIT_WRITE_ACTIONS
  | applyActions _ => OFPIT_APPLY_ACTIONS
  | clearActions => OFPIT_CLEAR_ACTIONS
  | meter _ => OFPIT_METER
  | experimenter _ => OFPIT_EXPERIMENTER

/-- `inst_compare` (pipeline.c:191-200), the qsort comparator used by
`pipeline_handle_flow_mod`.  The C comparator returns the `int` value of a
boolean comparison: for the Apply↔Clear pair it returns `i1->type > i2->type`,
otherwise `i1->type < i2->type`; both are `0` or `1`, never negative. -/
def inst_compare (i1 i2 : OflInstruction) : Int :=
  if (i1.itype = OFPIT_APPLY_ACTIONS ∧ i2.itype = OFPIT_CLEAR_ACTIONS) ∨
     (i1.itype = OFPIT_CLEAR_ACTIONS ∧ i2.itype = OFPIT_APPLY_ACTIONS) then
    if i1.itype > i2.itype then 1 else 0
  else
    if i1.itype < i2.itype then 1 else 0

/-- The qsort postcondition for an array sorted with `inst_compare`:
for every pair of positions `i < j`, the comparator does not order the
element at `i` after the element at `j`. -/
def SortedByInstCompare (l : List OflInstruction) : Prop :=
  ∀ j, j < l.length → ∀ i, i < j →
    inst_compare (l.getD i default) (l.getD j default) ≤ 0

instance (l : List OflInstruction) : Decidable (SortedByInstCompare l) := by
  unfold SortedByInstCompare; infer_instance

/-- The canonical execution order of the spec (section 4.2):
Meter, Apply-Actions, Clear-Actions, Write-Actions, Write-Metadata,
Goto-Table.  `none` for instruction kinds outside that list. -/
def canonicalRank : OflInstruction → Option Nat
  | .meter _ => some 0
  | .applyActions _ => some 1
  | .clearActions => some 2
  | .writeActions _ => some 3
  | .writeMetadata _ _ => some 4
  | .gotoTable _ => some 5
  | .experimenter _ => none

/-! ## Table data model

The pipeline owns `PIPELINE_TABLES` flow tables (`pl->tables`).  The table
count and `FLOW_TABLE_MAX_ENTRIES` are build-time constants from headers not
in the sources; every statement is parameterised by them (`N`, `maxEntries`).
Only the attributes the pipeline code reads are modelled. -/

/-- A table-mod property (`ofl_table_mod_prop_vacancy` and friends).  The C
code stores heterogeneous properties and casts by `type`; here a flat record
whose vacancy fields are meaningful when `type = OFPTMPT_VACANCY`. -/
structure TableModProp where
  type : Nat
  vacancy_down : Nat
  vacancy_up : Nat
  vacancy : Nat
  down_set : Bool
deriving DecidableEq, Inhabited

/-- The table description (`ofl_table_desc`): config word and properties. -/
structure TableDesc where
  config : Nat
  properties : List TableModProp
deriving DecidableEq, Inhabited

/-- Table features (`ofl_table_features`): the fields the pipeline touches. -/
structure TableFeatures where
  table_id : Nat
  config : Nat
deriving DecidableEq, Inhabited

/-- A flow table as seen from the pipeline (`struct flow_table`): its id and
active count (`stats`), description and features. -/
structure FlowTable where
  table_id : Nat
  active_count : Nat
  desc : TableDesc
  features : TableFeatures
deriving DecidableEq, Inhabited

/-- The pipeline: the array `pl->tables`, modelled as a total function from
table index. -/
structure Pipeline where
  tables : Nat → FlowTable

/-- Replace the table at index `i` (in-place mutation in the C code). -/
def Pipeline.setTable (pl : Pipeline) (i : Nat) (t : FlowTable) : Pipeline :=
  ⟨fun j => if j = i then t else pl.tables j⟩

/-! ## Table-mod handler (`pipeline_handle_table_mod`, pipeline.c:370-418) -/

/-- An `ofl_msg_table_mod` message: target table, requested config, and the
inbound property list. -/
structure OflMsgTableMod where
  table_id : Nat
  config : Nat
  props : List TableModProp
deriving DecidableEq, Inhabited

/-- The inner `tpi` loop of `pipeline_handle_table_mod`: apply one inbound
VACANCY property `po` to every VACANCY property of the table descriptor.
An inverted threshold pair returns `TABLE_FEATURES_FAILED/BAD_ARGUMENT`
(checked before each store, so nothing of this property is stored). -/
def tableModVacancyUpdate (maxEntries active : Nat) (po : TableModProp) :
    List TableModProp → List TableModProp × Nat
  | [] => ([], 0)
  | pd :: rest =>
    if pd.type = OFPTMPT_VACANCY then
      if po.vacancy_down > po.vacancy_up then
        (pd :: rest, ofl_error OFPET_TABLE_FEATURES_FAILED OFPTFFC_BAD_ARGUMENT)
      else
        let pd' := { pd with
          vacancy_down := po.vacancy_down
          vacancy_up := po.vacancy_up
          down_set :=
            decide ((maxEntries - active) * 100 / maxEntries ≥ po.vacancy_up) }
        let (rest', e) := tableModVacancyUpdate maxEntries active po rest
        (pd' :: rest', e)
    else
      let (rest', e) := tableModVacancyUpdate maxEntries active po rest
      (pd :: rest', e)

/-- The `mpi` loop of `pipeline_handle_table_mod`: fold every inbound VACANCY
property over the descriptor's property list, stopping at the first error. -/
def tableModApplyProps (maxEntries active : Nat) :
    List TableModProp → List TableModProp → List TableModProp × Nat
  | [], descProps => (descProps, 0)
  | po :: rest, descProps =>
    if po.type = OFPTMPT_VACANCY then
      let (d', e) := tableModVacancyUpdate maxEntries active po descProps
      if e ≠ 0 then (d', e)
      else tableModApplyProps maxEntries active rest d'
    else tableModApplyProps maxEntries active rest descProps

/-- One iteration of the `ti` loop: update the table's descriptor properties
and, when no error occurred, overwrite `desc.config` with the requested
config. -/
def tableModOneTable (maxEntries : Nat) (msg : OflMsgTableMod) (t : FlowTable) :
    FlowTable × Nat :=
  let (props', e) :=
    tableModApplyProps maxEntries t.active_count msg.props t.desc.properties
  if e ≠ 0 then ({ t with desc := { t.desc with properties := props' } }, e)
  else ({ t with desc := { config := msg.config, properties := props' } }, 0)

/-- The `ti` loop of `pipeline_handle_table_mod`: `for (ti = ti_start;
ti < ti_stop; ti++)`, stopping at (and keeping the partial updates of) the
first error. -/
def tableModLoop (maxEntries : Nat) (msg : OflMsgTableMod) (pl : Pipeline)
    (ti ti_stop : Nat) : Pipeline × Nat :=
  if _h : ti < ti_stop then
    let (t', e) := tableModOneTable maxEntries msg (pl.tables ti)
    let pl' := pl.setTable ti t'
    if e ≠ 0 then (pl', e)
    else tableModLoop maxEntries msg pl' (ti + 1) ti_stop
  else (pl, 0)
termination_by ti_stop - ti

/-- `pipeline_handle_table_mod` (pipeline.c:370-418).  Note the loop bounds
taken verbatim from the source: for a single table the C sets
`ti_start = ti_stop = msg->table_id`. -/
def pipeline_handle_table_mod (N maxEntries role : Nat) (pl : Pipeline)
    (msg : OflMsgTableMod) : Pipeline × Nat :=
  if role = OFPCR_ROLE_SLAVE then
    (pl, ofl_error OFPET_BAD_REQUEST OFPBRC_IS_SLAVE)
  else
    let ti_start := if msg.table_id = 0xff then 0 else msg.table_id
    let ti_stop := if msg.table_id = 0xff then N else msg.table_id
    tableModLoop maxEntries msg pl ti_start ti_stop

/-! ## Flow-mod handler (`pipeline_handle_flow_mod`, pipeline.c:202-368)

The flow-table application `flow_table_flow_mod` is external; it becomes the
oracle `ftmod` over an abstract table-store state `σ`, returning the new
state, an error word, the `match_kept`/`insts_kept` ownership flags and the
installed entry (as an abstract entry id).  The action validators
`dp_actions_validate` / `dp_actions_check_set_field_req` become the oracles
`vald` / `chk`.  `qsort` becomes the oracle `sortInsts` (claim C1 covers its
postcondition), and `ofl_msg_clone`'s error result becomes `cloneErr`.
The handler's externally visible actions are recorded as `FMEvent`s. -/

/-- An OXM match TLV (`ofl_match_tlv`): header word and value bytes. -/
structure MatchTLV where
  header : Nat
  value : List Nat
deriving DecidableEq, Inhabited

/-- The stored byte length of an `ofl_match` TLV list (each field contributes
a 4-byte OXM header plus its value; an empty match has length 0). -/
def ofl_match_length (tlvs : List MatchTLV) : Nat :=
  tlvs.foldl (fun a t => a + 4 + t.value.length) 0

/-- An `ofl_msg_flow_mod` message. -/
structure OflMsgFlowMod where
  command : Nat
  table_id : Nat
  priority : Nat
  buffer_id : Nat
  mtch : List MatchTLV
  instructions : List OflInstruction
deriving DecidableEq, Inhabited

/-- The subnet mask extracted from an `IPV4_DST_W` TLV (pipeline.c:250):
`value[4] << 24 | value[5] << 16 | value[6] << 8 | value[7]`. -/
def maskOfTLV (t : MatchTLV) : Nat :=
  (t.value.getD 4 0) <<< 24 ||| (t.value.getD 5 0) <<< 16 |||
  (t.value.getD 6 0) <<< 8 ||| t.value.getD 7 0

/-- The 32-iteration mask scan of pipeline.c:251-269, with the loop counter
counted down (`fuel` iterations remain, so the current bit index is
`32 - fuel`).  `found` is `found_one`, `nz` is `num_zero`; the result is
`none` when the loop returns `BAD_NW_ADDR_MASK` (a zero bit after a one bit)
and `some num_zero` when the scan completes. -/
def scanMask : Nat → Nat → Bool → Nat → Option Nat
  | 0, _, _, nz => some nz
  | fuel + 1, m, found, nz =>
    if m % 2 = 1 then
      if found then scanMask fuel (m / 2) true nz
      else scanMask fuel (m / 2) true (31 - fuel)
    else
      if found then none
      else scanMask fuel (m / 2) false nz

/-- The `HMAP_FOR_EACH` loop of the table-61 LPM validation
(pipeline.c:246-281): scan the match TLVs; a masked IPv4 destination must
have a contiguous mask (else `BAD_MATCH/BAD_NW_ADDR_MASK`) and a priority
equal to `32 - num_zero` (else `FLOW_MOD_FAILED/BAD_PRIORITY`); an exact
IPv4 destination requires priority 32. -/
def lpmScanTLVs (priority : Nat) : List MatchTLV → Nat
  | [] => 0
  | t :: rest =>
    if t.header = OXM_OF_IPV4_DST_W then
      match scanMask 32 (maskOfTLV t) false 32 with
      | none => ofl_error OFPET_BAD_MATCH OFPBMC_BAD_NW_ADDR_MASK
      | some nz =>
        if priority ≠ 32 - nz then
          ofl_error OFPET_FLOW_MOD_FAILED OFPFMFC_BAD_PRIORITY
        else lpmScanTLVs priority rest
    else if t.header = OXM_OF_IPV4_DST then
      if priority ≠ 32 then ofl_error OFPET_FLOW_MOD_FAILED OFPFMFC_BAD_PRIORITY
      else lpmScanTLVs priority rest
    else lpmScanTLVs priority rest

/-- The table-61 LPM validation (pipeline.c:239-283): only for `ADD` into
table 61, and only when the match has a nonzero stored length. -/
def lpmCheck (msg : OflMsgFlowMod) : Nat :=
  if msg.table_id = 61 ∧ msg.command = OFPFC_ADD then
    if ofl_match_length msg.mtch ≠ 0 then lpmScanTLVs msg.priority msg.mtch
    else 0
  else 0

/-- The action-validation loop (pipeline.c:223-237): for every Apply-Actions
or Write-Actions instruction, `dp_actions_validate` then
`dp_actions_check_set_field_req`, short-circuiting on the first error. -/
def validateInsts (vald : List Nat → Nat) (chk : OflMsgFlowMod → List Nat → Nat)
    (msg : OflMsgFlowMod) : List OflInstruction → Nat
  | [] => 0
  | inst :: rest =>
    match inst with
    | .applyActions acts =>
      let e := vald acts
      if e ≠ 0 then e
      else
        let e2 := chk msg acts
        if e2 ≠ 0 then e2 else validateInsts vald chk msg rest
    | .writeActions acts =>
      let e := vald acts
      if e ≠ 0 then e
      else
        let e2 := chk msg acts
        if e2 ≠ 0 then e2 else validateInsts vald chk msg rest
    | _ => validateInsts vald chk msg rest

/-- The result of `flow_table_flow_mod`: error word, ownership-transfer
flags, and the installed entry (an abstract entry id, `none` when the call
does not return an entry). -/
structure FtRes where
  err : Nat
  match_kept : Bool
  insts_kept : Bool
  flow : Option Nat
deriving DecidableEq, Inhabited

/-- Externally visible actions of `pipeline_handle_flow_mod`. -/
inductive FMEvent where
  /-- `flow_table_flow_mod(pl->tables[tbl], msg, ...)`. -/
  | dispatched (tbl : Nat) (msg : OflMsgFlowMod)
  /-- the mutual `sync_slave`/`sync_master` assignment (pipeline.c:346-347). -/
  | syncSet (master slave : Nat)
  /-- `ofl_msg_free_flow_mod(msg, !match_kept, !insts_kept, ...)`. -/
  | freed (free_match free_insts : Bool)
  /-- `ofl_msg_free_flow_mod(slave_msg, ...)` for the mirror clone. -/
  | freedClone (free_match free_insts : Bool)
  /-- `dp_buffers_retrieve` + `pipeline_process_packet` replay attempt. -/
  | replayedBuffer (buffer_id : Nat)
deriving DecidableEq, Inhabited

/-- The table id of a `dispatched` event, if any. -/
def FMEvent.dispatchTable : FMEvent → Option Nat
  | .dispatched t _ => some t
  | _ => none

/-- Is an event a `syncSet`? -/
def FMEvent.isSyncSet : FMEvent → Bool
  | .syncSet _ _ => true
  | _ => false

/-- Swap Ethernet source and destination OXM headers (pipeline.c:336-339). -/
def swapEthTLV (t : MatchTLV) : MatchTLV :=
  if t.header = OXM_OF_ETH_DST then { t with header := OXM_OF_ETH_SRC }
  else if t.header = OXM_OF_ETH_SRC then { t with header := OXM_OF_ETH_DST }
  else t

/-- The mirror clone of a flow-mod (pipeline.c:330-341): every `ETH_DST`
header becomes `ETH_SRC` and vice versa (the source guards the transposition
loop behind a nonzero match length). -/
def mirrorClone (msg : OflMsgFlowMod) : OflMsgFlowMod :=
  if ofl_match_length msg.mtch ≠ 0 then
    { msg with mtch := msg.mtch.map swapEthTLV }
  else msg

/-- The table-62 → table-63 mirror step (pipeline.c:313-350): on a
successful ADD into table 62 returning an entry, clone the message, swap the
Ethernet headers, install the clone into table 63, free the clone, and on
success link the two entries; any error is swallowed.  (On a successful
slave install the source dereferences the returned entry unconditionally;
the `none` case below cannot arise for a successful ADD.) -/
def mirrorStep {σ : Type} (ftmod : Nat → OflMsgFlowMod → σ → σ × FtRes)
    (cloneErr : Nat) (msg : OflMsgFlowMod) (r : FtRes) (st : σ) :
    σ × List FMEvent :=
  if msg.table_id = 62 ∧ msg.command = OFPFC_ADD ∧ r.flow.isSome then
    if cloneErr = 0 then
      let smsg := mirrorClone msg
      let (st', rs) := ftmod 63 smsg st
      let syncEvs : List FMEvent :=
        if rs.err = 0 then
          match r.flow, rs.flow with
          | some m, some s => [.syncSet m s]
          | _, _ => []
        else []
      (st', [.dispatched 63 smsg, .freedClone (!rs.match_kept) (!rs.insts_kept)]
            ++ syncEvs)
    else (st, [])
  else (st, [])

/-- The all-tables delete loop (pipeline.c:285-302): apply the flow-mod to
tables `i, i+1, …, N-1` in order, stopping at the first error (which is
returned without freeing the message); on completion free the message using
the ownership flags of the last call. -/
def deleteAllLoop {σ : Type} (ftmod : Nat → OflMsgFlowMod → σ → σ × FtRes)
    (msg : OflMsgFlowMod) (N : Nat) (st : σ) (i : Nat) (mk ik : Bool) :
    σ × List FMEvent × Nat :=
  if _h : i < N then
    let (st', r) := ftmod i msg st
    if r.err ≠ 0 then (st', [.dispatched i msg], r.err)
    else
      let (st'', evs, e) :=
        deleteAllLoop ftmod msg N st' (i + 1) r.match_kept r.insts_kept
      (st'', .dispatched i msg :: evs, e)
  else (st, [.freed (!mk) (!ik)], 0)
termination_by N - i

/-- The dispatch stage of `pipeline_handle_flow_mod` (pipeline.c:285-367):
the `table_id == 0xff` branch (all-tables delete or `BAD_TABLE_ID`), or the
single-table application followed by the 62→63 mirror, the buffered-packet
replay and the message free. -/
def flowModDispatch {σ : Type} (N : Nat)
    (ftmod : Nat → OflMsgFlowMod → σ → σ × FtRes) (cloneErr : Nat)
    (msg : OflMsgFlowMod) (st : σ) : σ × List FMEvent × Nat :=
  if msg.table_id = 0xff then
    if msg.command = OFPFC_DELETE ∨ msg.command = OFPFC_DELETE_STRICT then
      deleteAllLoop ftmod msg N st 0 false false
    else (st, [], ofl_error OFPET_FLOW_MOD_FAILED OFPFMFC_BAD_TABLE_ID)
  else
    let (st1, r) := ftmod msg.table_id msg st
    if r.err ≠ 0 then (st1, [.dispatched msg.table_id msg], r.err)
    else
      let (st2, mirrorEvs) := mirrorStep ftmod cloneErr msg r st1
      let replayEvs : List FMEvent :=
        if (msg.command = OFPFC_ADD ∨ msg.command = OFPFC_MODIFY ∨
            msg.command = OFPFC_MODIFY_STRICT) ∧ msg.buffer_id ≠ NO_BUFFER
        then [.replayedBuffer msg.buffer_id] else []
      (st2, .dispatched msg.table_id msg ::
        (mirrorEvs ++ replayEvs ++ [.freed (!r.match_kept) (!r.insts_kept)]),
        0)

/-- `pipeline_handle_flow_mod` (pipeline.c:202-368).  `N` is
`PIPELINE_TABLES`; `role` is the sender's role; the oracles are described at
the section head.  Returns the final table-store state, the event trace and
the returned error word. -/
def pipeline_handle_flow_mod {σ : Type} (N role : Nat)
    (sortInsts : List OflInstruction → List OflInstruction)
    (vald : List Nat → Nat) (chk : OflMsgFlowMod → List Nat → Nat)
    (ftmod : Nat → OflMsgFlowMod → σ → σ × FtRes) (cloneErr : Nat)
    (msg : OflMsgFlowMod) (st : σ) : σ × List FMEvent × Nat :=
  if role = OFPCR_ROLE_SLAVE then
    (st, [], ofl_error OFPET_BAD_REQUEST OFPBRC_IS_SLAVE)
  else
    let msg := { msg with instructions := sortInsts msg.instructions }
    let e := validateInsts vald chk msg msg.instructions
    if e ≠ 0 then (st, [], e)
    else
      let e := lpmCheck msg
      if e ≠ 0 then (st, [], e)
      else flowModDispatch N ftmod cloneErr msg st

/-- The table-store state reached after applying `ftmod` for tables
`0, …, k-1` in order (the claim-side description of the all-tables delete
sequence). -/
def iterState {σ : Type} (ftmod : Nat → OflMsgFlowMod → σ → σ × FtRes)
    (msg : OflMsgFlowMod) (st : σ) : Nat → σ
  | 0 => st
  | k + 1 => (ftmod k msg (iterState ftmod msg st k)).1

/-- The tables dispatched to, in trace order. -/
def dispatchedTables (evs : List FMEvent) : List Nat :=
  evs.filterMap FMEvent.dispatchTable

/-! ## Claim-side mask predicates (spec sections 4.3 and 8)

`maskContiguous` renders "the bit pattern is `1*0*` when read MSB→LSB" /
"no holes of zero-bits between one-bits when scanned LSB→MSB": within the
32-bit window, every bit above a one bit is also one.  `trailingZeros32`
counts the trailing zero bits of the 32-bit mask (32 for the zero mask). -/

/-- Contiguity of a 32-bit network mask. -/
def maskContiguous (m : Nat) : Prop :=
  ∀ j, j < 32 → ∀ i, i < j → m.testBit i = true → m.testBit j = true

instance (m : Nat) : Decidable (maskContiguous m) := by
  unfold maskContiguous; infer_instance

/-- Trailing-zero count below a width bound. -/
def tzAux : Nat → Nat → Nat
  | 0, _ => 0
  | k + 1, m => if m % 2 = 1 then 0 else tzAux k (m / 2) + 1

/-- The number of trailing zero bits of a 32-bit mask. -/
def trailingZeros32 (m : Nat) : Nat := tzAux 32 m

/-! ## Multipart reply chunking and table-desc emission
(pipeline.c:506-677) -/

/-- One multipart reply chunk: the per-table payload entries (each paired
with the table index it was read from) and the reply flags word. -/
structure MpChunk (α : Type) where
  payload : List α
  flags : Nat
deriving DecidableEq, Inhabited

/-- The `goto loop` chunk emitter shared by the features and desc replies
(pipeline.c:613-629 and 644-673): starting at table `j`, read `szm1 + 1`
consecutive tables, emit a chunk whose flags are `REPLY_MORE` unless the
advanced position equals `N`, and loop while the position is below `N`
(a do-while: the first chunk is emitted unconditionally, as in the
source). -/
def mpChunkLoop {α : Type} (payload : Nat → α) (szm1 N j : Nat) :
    List (MpChunk α) :=
  let ids := (List.range (szm1 + 1)).map (j + ·)
  let chunk : MpChunk α :=
    ⟨ids.map payload, if j + (szm1 + 1) = N then 0 else OFPMPF_REPLY_MORE⟩
  chunk :: (if _h : j + (szm1 + 1) < N then
    mpChunkLoop payload szm1 N (j + (szm1 + 1)) else [])
termination_by N - j
decreasing_by omega

/-- The reply emission of
`pipeline_handle_stats_request_table_features_request` (pipeline.c:608-631):
chunks of 8 table-features. -/
def featuresReplyChunks (pl : Pipeline) (N : Nat) :
    List (MpChunk (Nat × TableFeatures)) :=
  mpChunkLoop (fun i => (i, (pl.tables i).features)) 7 N 0

/-- The per-table property update of the table-desc reply
(pipeline.c:648-661): when the table's `desc.config` has
`OFPTC_VACANCY_EVENTS`, each VACANCY property's `vacancy` is recomputed from
the live `active_count`; otherwise (including the `OFPTC_EVICTION` case) the
stored properties are sent unchanged. -/
def emitDesc (maxEntries : Nat) (t : FlowTable) : TableDesc :=
  { t.desc with
      properties := t.desc.properties.map fun p =>
        if t.desc.config &&& OFPTC_VACANCY_EVENTS ≠ 0 then
          if p.type = OFPTMPT_VACANCY then
            { p with vacancy :=
                (maxEntries - t.active_count) * 100 / maxEntries }
          else p
        else p }

/-- `pipeline_handle_stats_request_table_desc_request` (pipeline.c:634-677):
chunks of 16 table descriptions with emit-time vacancy update. -/
def descReplyChunks (pl : Pipeline) (maxEntries N : Nat) :
    List (MpChunk (Nat × TableDesc)) :=
  mpChunkLoop (fun i => (i, emitDesc maxEntries (pl.tables i))) 15 N 0

/-! ## Table-features multipart request handler (pipeline.c:506-632) -/

/-- An `ofl_msg_multipart_request_table_features`: flags, table count and
the feature list (`[]` models a NULL `table_features`). -/
structure TFReq where
  flags : Nat
  tables_num : Nat
  table_features : List TableFeatures
deriving DecidableEq, Inhabited

/-- The remote's reassembly slot (`mp_req_msg`, `mp_req_xid`,
`mp_req_lasttime`). -/
structure RemoteState where
  mp_req_msg : Option TFReq
  mp_req_xid : Nat
  mp_req_lasttime : Nat
deriving DecidableEq, Inhabited

/-- Modelled from the spec: `ofl_msg_merge_multipart_request_table_features`
lives in oflib, which is not under src/.  Per spec section 6 the merge
combines the fragment into the reassembly buffer and returns the
"no more fragments" boolean, i.e. whether the fragment's `REQ_MORE` flag is
absent. -/
def ofl_msg_merge_tf (saved frag : TFReq) : TFReq × Bool :=
  ({ saved with
      tables_num := saved.tables_num + frag.tables_num
      table_features := saved.table_features ++ frag.table_features },
   decide (frag.flags &&& OFPMPF_REQ_MORE = 0))

/-- The feature update of a completed request (pipeline.c:584-597):
`pl->tables[f->table_id]->features = f` for each supplied descriptor, only
when the body is non-null. -/
def applyFeatures (pl : Pipeline) (feat : TFReq) : Pipeline :=
  if feat.table_features = [] then pl
  else
    feat.table_features.foldl
      (fun p f =>
        p.setTable f.table_id { p.tables f.table_id with features := f }) pl

/-- The empty reassembly buffer created for an initial fragment
(pipeline.c:562-567). -/
def emptyTFReq : TFReq := ⟨0, 0, []⟩

/-- `pipeline_handle_stats_request_table_features_request`
(pipeline.c:506-632).  Returns the new pipeline, the new remote state, the
emitted reply chunks and the error word. -/
def pipeline_handle_tf_request (N : Nat) (pl : Pipeline)
    (remote : RemoteState) (xid now : Nat) (msg : TFReq) :
    Pipeline × RemoteState × List (MpChunk (Nat × TableFeatures)) × Nat :=
  match remote.mp_req_msg with
  | some pending =>
    if xid ≠ remote.mp_req_xid then
      (pl, remote, [],
        ofl_error OFPET_BAD_REQUEST OFPBRC_MULTIPART_BUFFER_OVERFLOW)
    else
      let (merged, nomore) := ofl_msg_merge_tf pending msg
      let remote' := { remote with
        mp_req_msg := some merged, mp_req_lasttime := now }
      if !nomore then (pl, remote', [], 0)
      else
        let pl' := applyFeatures pl merged
        let remote'' := { remote' with mp_req_msg := none, mp_req_xid := 0 }
        (pl', remote'', featuresReplyChunks pl' N, 0)
  | none =>
    if msg.flags &&& OFPMPF_REQ_MORE ≠ 0 then
      let (saved, _) := ofl_msg_merge_tf emptyTFReq msg
      (pl, ⟨some saved, xid, now⟩, [], 0)
    else
      let pl' := applyFeatures pl msg
      (pl', remote, featuresReplyChunks pl' N, 0)

/-- The C10 counterexample table: no config flags, a VACANCY property with a
stale stored vacancy of 7, and zero active entries. -/
def c10table : FlowTable :=
  ⟨0, 0, ⟨0, [⟨OFPTMPT_VACANCY, 5, 50, 7, false⟩]⟩, ⟨0, 0⟩⟩

/-- A pipeline whose every table is `c10table`. -/
def c10pl : Pipeline := ⟨fun i => { c10table with table_id := i }⟩

/-- The C10 witness table: `OFPTC_VACANCY_EVENTS` set (config 8), 20 active
entries, a VACANCY property with stale stored vacancy 7. -/
def c10flagtable : FlowTable :=
  ⟨0, 20, ⟨8, [⟨OFPTMPT_VACANCY, 5, 50, 7, false⟩]⟩, ⟨0, 0⟩⟩

/-- A pipeline whose every table is `c10flagtable`. -/
def c10flagpl : Pipeline := ⟨fun i => { c10flagtable with table_id := i }⟩

/-- The single desc-reply chunk emitted for `c10flagpl` with 16 tables. -/
def c10chunk : MpChunk (Nat × TableDesc) :=
  ⟨(List.range 16).map (fun i => (i, emitDesc 100 (c10flagpl.tables i))), 0⟩

/-- A concrete flow table for the C2 failing input: table 3 carries a VACANCY
descriptor property and config 0. -/
def c2table : FlowTable :=
  ⟨3, 10, ⟨0, [⟨OFPTMPT_VACANCY, 0, 0, 0, false⟩]⟩, ⟨3, 0⟩⟩

/-- A pipeline whose every table is `c2table` (with its own id). -/
def c2pl : Pipeline := ⟨fun i => { c2table with table_id := i }⟩

/-- The C2 failing input: a table-mod for table 3 with config 7 and a VACANCY
property whose thresholds are inverted (down 9 > up 2). -/
def c2msg : OflMsgTableMod := ⟨3, 7, [⟨OFPTMPT_VACANCY, 9, 2, 0, false⟩]⟩

/-! ## Packet processing (`pipeline_process_packet` / `execute_entry`,
pipeline.c:121-189 and 735-807)

The externally observable behaviour of a packet's traversal is recorded as a
trace of events; the external collaborators become oracles:
`lookup` abstracts `flow_table_lookup` per table index, and `meterKills`
abstracts whether `meter_table_apply` destroys the packet (the only callout
the loop re-checks the packet pointer against). -/

/-- A flow entry as the pipeline reads it: priority and match length (for
the table-miss test), cookie and instruction list. -/
structure FlowEntry where
  priority : Nat
  match_length : Nat
  cookie : Nat
  instructions : List OflInstruction
deriving DecidableEq, Inhabited

/-- `is_table_miss` (pipeline.c:80-85): priority 0 and an all-wildcard match
(length at most 4). -/
def is_table_miss (e : FlowEntry) : Bool :=
  e.priority = 0 && e.match_length ≤ 4

/-- Observable events of a packet traversal. -/
inductive PktEvent where
  /-- `pkt->table_id := table->stats->table_id` at the head of an iteration. -/
  | tryTable (table_id : Nat)
  /-- `send_packet_to_controller` (a PACKET_IN with cookie all-ones). -/
  | packetIn (table_id reason : Nat)
  /-- `dp_execute_action_list` from an Apply-Actions instruction. -/
  | execActionList (actions : List Nat) (cookie reason : Nat)
  /-- `action_set_write_actions` from a Write-Actions instruction. -/
  | writeActions (actions : List Nat)
  /-- `action_set_clear_actions` from a Clear-Actions instruction. -/
  | clearActions
  /-- the metadata TLV update of a Write-Metadata instruction. -/
  | writeMetadata (metadata mask : Nat)
  /-- `meter_table_apply` from a Meter instruction. -/
  | meterApply (meter_id : Nat)
  /-- `dp_exp_inst` from an Experimenter instruction. -/
  | expInst (exp_id : Nat)
  /-- `action_set_execute` of the packet's accumulated action set. -/
  | actionSetExecute (cookie reason : Nat)
  /-- `packet_destroy`. -/
  | packetDestroy
deriving DecidableEq, Inhabited

/-- Is an event an `action_set_execute`? -/
def PktEvent.isActionSetExecute : PktEvent → Bool
  | .actionSetExecute _ _ => true
  | _ => false

/-- Is an event a PACKET_IN send? -/
def PktEvent.isPacketIn : PktEvent → Bool
  | .packetIn _ _ => true
  | _ => false

/-- State threaded through `execute_entry`: packet liveness, the pending
`next_table` (as a table index), and the event trace so far. -/
structure ExecState where
  alive : Bool
  next : Option Nat
  events : List PktEvent
deriving DecidableEq, Inhabited

/-- The instruction loop of `execute_entry` (pipeline.c:751-806).  The packet
pointer is re-checked at the top of every iteration; only a meter can clear
it.  A Goto-Table records the target table index (`*next_table :=
pl->tables[gi->table_id]`). -/
def execInstructions (e : FlowEntry) (meterKills : Nat → Bool) :
    List OflInstruction → ExecState → ExecState
  | [], s => s
  | inst :: rest, s =>
    if !s.alive then s
    else
      let s' :=
        match inst with
        | .gotoTable tid => { s with next := some tid }
        | .writeMetadata v m =>
            { s with events := s.events ++ [.writeMetadata v m] }
        | .writeActions acts =>
            { s with events := s.events ++ [.writeActions acts] }
        | .applyActions acts =>
            { s with events := s.events ++ [.execActionList acts e.cookie
                (if is_table_miss e then OFPR_TABLE_MISS else OFPR_APPLY_ACTION)] }
        | .clearActions => { s with events := s.events ++ [.clearActions] }
        | .meter mid =>
            { alive := !(meterKills mid), next := s.next,
              events := s.events ++ [.meterApply mid] }
        | .experimenter eid => { s with events := s.events ++ [.expInst eid] }
      execInstructions e meterKills rest s'

/-- `execute_entry` (pipeline.c:735-807). -/
def execute_entry (e : FlowEntry) (meterKills : Nat → Bool) : ExecState :=
  execInstructions e meterKills e.instructions ⟨true, none, []⟩

/-- The `while (next_table != NULL)` loop of `pipeline_process_packet`
(pipeline.c:143-187), as the event trace it produces from the current table
index.  `fuel` bounds the number of iterations (the C loop's termination
relies on the external goto-table validation; no claim needs more than
`fuel` unrollings). -/
def processLoop (pl : Pipeline) (lookup : Nat → Option FlowEntry)
    (meterKills : Nat → Bool) : Nat → Nat → List PktEvent
  | 0, _ => []
  | fuel + 1, t =>
    let ev0 : List PktEvent := [.tryTable (pl.tables t).table_id]
    match lookup t with
    | none => ev0 ++ [.packetDestroy]
    | some e =>
      let ex := execute_entry e meterKills
      if !ex.alive then ev0 ++ ex.events
      else
        match ex.next with
        | none => ev0 ++ ex.events ++
            [.actionSetExecute 0xffffffffffffffff OFPR_ACTION_SET,
             .packetDestroy]
        | some tid => ev0 ++ ex.events ++ processLoop pl lookup meterKills fuel tid

/-- `pipeline_process_packet` (pipeline.c:121-189): the TTL gate, then the
table-traversal loop starting at table 0. -/
def pipeline_process_packet (pl : Pipeline) (lookup : Nat → Option FlowEntry)
    (meterKills : Nat → Bool) (ttl_valid : Bool) (config_flags : Nat)
    (fuel : Nat) : List PktEvent :=
  if !ttl_valid then
    if config_flags &&& OFPC_INVALID_TTL_TO_CONTROLLER ≠ 0 then
      [.packetIn 0 OFPR_INVALID_TTL, .packetDestroy]
    else
      [.packetDestroy]
  else
    processLoop pl lookup meterKills fuel 0

/-- Rewrite every table's `desc.config` (for stating that a code path never
consults the config field). -/
def Pipeline.mapConfig (pl : Pipeline) (f : Nat → Nat) : Pipeline :=
  ⟨fun i =>
    let t := pl.tables i
    { t with desc := { t.desc with config := f t.desc.config } }⟩

/-- A concrete flow table for packet-processing witnesses. -/
def c3table : FlowTable := ⟨0, 0, ⟨0, []⟩, ⟨0, 0⟩⟩

/-- A concrete pipeline for packet-processing witnesses. -/
def c3pl : Pipeline := ⟨fun i => { c3table with table_id := i }⟩

/-- A concrete matched entry whose single instruction applies an action list;
it sets no next table and leaves the packet alive. -/
def c3entry : FlowEntry := ⟨100, 20, 77, [.applyActions [2]]⟩

/-- A concrete lookup oracle: table 0 matches `c3entry`, others miss. -/
def c3lookup : Nat → Option FlowEntry :=
  fun t => if t = 0 then some c3entry else none

/-- The C5 witness TLV: a masked IPv4 destination whose mask bytes are
`255.0.255.0` (non-contiguous). -/
def c5tlv : MatchTLV := ⟨OXM_OF_IPV4_DST_W, [10, 0, 0, 0, 255, 0, 255, 0]⟩

/-- The C5 witness message: an ADD into table 61 carrying `c5tlv`. -/
def c5msg : OflMsgFlowMod := ⟨OFPFC_ADD, 61, 16, NO_BUFFER, [c5tlv], []⟩

/-- A flow-table oracle that always succeeds and returns no entry. -/
def ftOk : Nat → OflMsgFlowMod → Nat → Nat × FtRes :=
  fun _ _ s => (s, ⟨0, false, false, none⟩)

/-- A flow-table oracle for the mirror witness: every install succeeds,
increments the state and returns entry id `100 + table`. -/
def ft62 : Nat → OflMsgFlowMod → Nat → Nat × FtRes :=
  fun t _ s => (s + 1, ⟨0, false, false, some (100 + t)⟩)

/-- The C6 witness message: an ADD into table 62 matching on `ETH_DST`. -/
def c6msg : OflMsgFlowMod :=
  ⟨OFPFC_ADD, 62, 5, NO_BUFFER, [⟨OXM_OF_ETH_DST, [1, 2, 3, 4, 5, 6]⟩], []⟩

/-- A flow-table oracle for the delete witness: every call succeeds. -/
def ftDel : Nat → OflMsgFlowMod → Nat → Nat × FtRes :=
  fun _ _ s => (s + 1, ⟨0, false, false, none⟩)

/-- The C9 witness message: a DELETE with `table_id = 0xff`. -/
def c9msg : OflMsgFlowMod := ⟨OFPFC_DELETE, 0xff, 0, NO_BUFFER, [], []⟩

/-- The C9 witness message for the rejected arm: an ADD with
`table_id = 0xff`. -/
def c9msgAdd : OflMsgFlowMod := ⟨OFPFC_ADD, 0xff, 0, NO_BUFFER, [], []⟩

/-- A concrete instruction list in canonical order, used as a witness input. -/
def c1list : List OflInstruction :=
  [.meter 1, .applyActions [7], .clearActions, .writeActions [9],
   .writeMetadata 5 6, .gotoTable 2]

/-- Elements not ordered after one another by `inst_compare` are in canonical
rank order: the comparator orders by type descending, except that
Apply-Actions is placed before Clear-Actions. -/
theorem inst_compare_rank_le {x y : OflInstruction} {a b : Nat}
    (hc : inst_compare x y ≤ 0)
    (hx : canonicalRank x = some a) (hy : canonicalRank y = some b) :
    a ≤ b := by
  cases x <;> cases y <;> simp [canonicalRank] at hx hy <;>
    norm_num [inst_compare, OflInstruction.itype, OFPIT_GOTO_TABLE,
      OFPIT_WRITE_METADATA, OFPIT_WRITE_ACTIONS, OFPIT_APPLY_ACTIONS,
      OFPIT_CLEAR_ACTIONS, OFPIT_METER, OFPIT_EXPERIMENTER] at hc <;> omega

/-- C1: after `pipeline_handle_flow_mod` sorts a flow-mod's instruction array
with `inst_compare` (i.e. once the array satisfies the qsort postcondition for
that comparator), every pair of instructions appears in the canonical
execution order Meter, Apply-Actions, Clear-Actions, Write-Actions,
Write-Metadata, Goto-Table, with Apply before Clear when both are present. -/
theorem instruction_sort_gives_canonical_order (l : List OflInstruction)
    (hs : SortedByInstCompare l) :
    ∀ j, j < l.length → ∀ i, i < j → ∀ a b,
      canonicalRank (l.getD i default) = some a →
      canonicalRank (l.getD j default) = some b → a ≤ b := by
  intro j hj i hij a b ha hb
  exact inst_compare_rank_le (hs j hj i hij) ha hb

/-- Witness for C1 at a concrete sorted instruction list. -/
theorem instruction_sort_gives_canonical_order_witness :
    SortedByInstCompare c1list ∧
    canonicalRank (c1list.getD 0 default) = some 0 ∧
    canonicalRank (c1list.getD 5 default) = some 5 ∧
    (0 : Nat) ≤ 5 :=
  ⟨by decide, by decide, by decide,
    instruction_sort_gives_canonical_order c1list (by decide) 5 (by decide)
      0 (by decide) 0 5 (by decide) (by decide)⟩

/-- The instruction executor never executes the accumulated action set:
`execInstructions` appends no `actionSetExecute` event. -/
theorem execInstructions_filter_ase (e : FlowEntry) (mk : Nat → Bool) :
    ∀ l s, ((execInstructions e mk l s).events).filter PktEvent.isActionSetExecute
      = s.events.filter PktEvent.isActionSetExecute := by
  intro l
  induction l with
  | nil => intro s; rfl
  | cons inst rest ih =>
    intro s
    simp only [execInstructions]
    by_cases ha : s.alive
    · simp only [ha, Bool.not_true, Bool.false_eq_true, if_false]
      cases inst <;>
        simp [ih, List.filter_append, PktEvent.isActionSetExecute]
    · simp [ha]

/-- C3: in `pipeline_process_packet`, when the lookup at the current table
matches an entry, instruction execution leaves the packet alive and sets no
next table, the traversal terminates by executing the accumulated action set
exactly once, with cookie all-ones and reason `ACTION_SET`, then destroying
the packet and returning. -/
theorem process_packet_terminal_action_set (pl : Pipeline)
    (lookup : Nat → Option FlowEntry) (meterKills : Nat → Bool)
    (fuel t config_flags : Nat) (e : FlowEntry)
    (hlk : lookup t = some e)
    (halive : (execute_entry e meterKills).alive = true)
    (hnext : (execute_entry e meterKills).next = none) :
    processLoop pl lookup meterKills (fuel + 1) t =
      PktEvent.tryTable (pl.tables t).table_id ::
        ((execute_entry e meterKills).events ++
          [.actionSetExecute 0xffffffffffffffff OFPR_ACTION_SET,
           .packetDestroy]) ∧
    (processLoop pl lookup meterKills (fuel + 1) t).filter
        PktEvent.isActionSetExecute =
      [.actionSetExecute 0xffffffffffffffff OFPR_ACTION_SET] ∧
    pipeline_process_packet pl lookup meterKills true config_flags (fuel + 1) =
      processLoop pl lookup meterKills (fuel + 1) 0 := by
  have h1 : processLoop pl lookup meterKills (fuel + 1) t =
      PktEvent.tryTable (pl.tables t).table_id ::
        ((execute_entry e meterKills).events ++
          [.actionSetExecute 0xffffffffffffffff OFPR_ACTION_SET,
           .packetDestroy]) := by
    rw [processLoop, hlk]
    simp [halive, hnext]
  refine ⟨h1, ?_, rfl⟩
  rw [h1]
  have h3 : ((execute_entry e meterKills).events).filter
      PktEvent.isActionSetExecute = [] :=
    execInstructions_filter_ase e meterKills e.instructions ⟨true, none, []⟩
  simp [List.filter_append, h3, PktEvent.isActionSetExecute]

/-- Witness for C3 at a concrete pipeline, lookup and entry. -/
theorem process_packet_terminal_action_set_witness :
    c3lookup 0 = some c3entry ∧
    (execute_entry c3entry (fun _ => false)).alive = true ∧
    (execute_entry c3entry (fun _ => false)).next = none ∧
    (processLoop c3pl c3lookup (fun _ => false) 1 0).filter
        PktEvent.isActionSetExecute =
      [.actionSetExecute 0xffffffffffffffff OFPR_ACTION_SET] :=
  ⟨by decide, by decide, by decide,
    (process_packet_terminal_action_set c3pl c3lookup (fun _ => false)
      0 0 0 c3entry (by decide) (by decide) (by decide)).2.1⟩

/-- C4: in `pipeline_process_packet`, a lookup miss (nil entry) destroys the
packet and returns immediately: no PACKET_IN, no action-set execution, and
the result is unchanged under any rewriting of the tables' `desc.config`
(the config field is not consulted for a controller-punt fallback). -/
theorem process_packet_miss_drops (pl : Pipeline)
    (lookup : Nat → Option FlowEntry) (meterKills : Nat → Bool)
    (fuel t config_flags : Nat)
    (hmiss : lookup t = none) :
    processLoop pl lookup meterKills (fuel + 1) t =
      [.tryTable (pl.tables t).table_id, .packetDestroy] ∧
    (processLoop pl lookup meterKills (fuel + 1) t).filter
        PktEvent.isPacketIn = [] ∧
    (processLoop pl lookup meterKills (fuel + 1) t).filter
        PktEvent.isActionSetExecute = [] ∧
    (∀ f, processLoop (pl.mapConfig f) lookup meterKills (fuel + 1) t =
          processLoop pl lookup meterKills (fuel + 1) t) ∧
    pipeline_process_packet pl lookup meterKills true config_flags (fuel + 1) =
      processLoop pl lookup meterKills (fuel + 1) 0 := by
  have h1 : ∀ q : Pipeline, processLoop q lookup meterKills (fuel + 1) t =
      [.tryTable (q.tables t).table_id, .packetDestroy] := by
    intro q; rw [processLoop, hmiss]; rfl
  refine ⟨h1 pl, ?_, ?_, ?_, rfl⟩
  · rw [h1 pl]; rfl
  · rw [h1 pl]; rfl
  · intro f
    rw [h1 pl, h1 (pl.mapConfig f)]
    rfl

/-- Witness for C4 at a concrete pipeline and an always-miss lookup. -/
theorem process_packet_miss_drops_witness :
    (fun (_ : Nat) => (none : Option FlowEntry)) 0 = none ∧
    processLoop c3pl (fun _ => none) (fun _ => false) 1 0 =
      [.tryTable 0, .packetDestroy] ∧
    processLoop (c3pl.mapConfig (fun c => c + 9)) (fun _ => none)
        (fun _ => false) 1 0 =
      processLoop c3pl (fun _ => none) (fun _ => false) 1 0 :=
  ⟨rfl,
    (process_packet_miss_drops c3pl (fun _ => none) (fun _ => false)
      0 0 0 rfl).1,
    (process_packet_miss_drops c3pl (fun _ => none) (fun _ => false)
      0 0 0 rfl).2.2.2.1 (fun c => c + 9)⟩

/-- C2: refuted on the code — `pipeline_handle_table_mod` from a non-slave
sender naming a single table is a no-op.  The source sets
`ti_start = ti_stop = msg->table_id`, so the `ti < ti_stop` loop never runs:
on the failing input (table 3, config 7, VACANCY thresholds inverted 9 > 2,
targeted table owning a VACANCY property) the handler returns success and an
unchanged pipeline, where the claim requires the inverted thresholds to be
rejected with `TABLE_FEATURES_FAILED/BAD_ARGUMENT` and otherwise the
thresholds stored, `down_set` recomputed and `desc.config` overwritten. -/
theorem table_mod_single_table_is_noop :
    pipeline_handle_table_mod 64 4096 OFPCR_ROLE_MASTER c2pl c2msg = (c2pl, 0) ∧
    c2msg.table_id = 3 ∧ c2msg.config = 7 ∧
    c2msg.props = [⟨OFPTMPT_VACANCY, 9, 2, 0, false⟩] ∧
    (c2pl.tables 3).desc.config = 0 ∧
    (c2pl.tables 3).desc.properties = [⟨OFPTMPT_VACANCY, 0, 0, 0, false⟩] := by
  refine ⟨?_, rfl, rfl, rfl, rfl, rfl⟩
  rw [pipeline_handle_table_mod, tableModLoop]
  norm_num [OFPCR_ROLE_MASTER, OFPCR_ROLE_SLAVE, c2msg]

/-! ### Characterisation of the LPM mask scan (pipeline.c:251-269) -/

/-- Split a residue modulo `2^(k+1)` into low bit and the rest. -/
theorem mod_two_pow_succ (m k : Nat) :
    m % 2 ^ (k + 1) = m % 2 + 2 * (m / 2 % 2 ^ k) := by
  have h1 : 2 ^ (k + 1) = 2 * 2 ^ k := by ring
  rw [h1, Nat.mod_mul]

/-- The trailing-zero counter never exceeds its width bound. -/
theorem tzAux_le : ∀ k m, tzAux k m ≤ k := by
  intro k
  induction k with
  | zero => intro m; simp [tzAux]
  | succ k ih =>
    intro m
    rw [tzAux]
    by_cases h : m % 2 = 1
    · simp [h]
    · rw [if_neg h]
      exact Nat.succ_le_succ (ih (m / 2))

/-- The trailing-zero count of zero is the full width. -/
theorem tzAux_zero : ∀ k, tzAux k 0 = k := by
  intro k
  induction k with
  | zero => rfl
  | succ k ih => rw [tzAux]; norm_num [ih]

/-- After the scan has seen a one bit, it succeeds iff every remaining bit
is one (and `num_zero` is no longer written). -/
theorem scanMask_found (nz : Nat) : ∀ k m,
    scanMask k m true nz =
      if m % 2 ^ k = 2 ^ k - 1 then some nz else none := by
  intro k
  induction k with
  | zero => intro m; simp [scanMask, Nat.mod_one]
  | succ k ih =>
    intro m
    have hp : 0 < 2 ^ k := Nat.two_pow_pos k
    have hm := mod_two_pow_succ m k
    have h4 : 2 ^ (k + 1) = 2 * 2 ^ k := by ring
    have hlt : m / 2 % 2 ^ k < 2 ^ k := Nat.mod_lt _ hp
    rw [scanMask]
    by_cases h2 : m % 2 = 1
    · rw [if_pos h2, if_pos rfl, ih (m / 2)]
      have hcond : (m / 2 % 2 ^ k = 2 ^ k - 1) ↔
          (m % 2 ^ (k + 1) = 2 ^ (k + 1) - 1) := by omega
      rw [if_congr hcond rfl rfl]
    · rw [if_neg h2, if_pos rfl, if_neg (by omega)]

/-- Full characterisation of the scan before any one bit has been seen:
success with the initial `num_zero` on an all-zero window, success with
`num_zero = 32 - k + tzAux k m` when the window is ones-above-zeros, and the
mask-hole error otherwise. -/
theorem scanMask_notFound (nz : Nat) : ∀ k, k ≤ 32 → ∀ m,
    scanMask k m false nz =
      if m % 2 ^ k = 0 then some nz
      else if m % 2 ^ k = 2 ^ k - 2 ^ tzAux k m then
        some (32 - k + tzAux k m)
      else none := by
  intro k
  induction k with
  | zero => intro _ m; simp [scanMask, tzAux, Nat.mod_one]
  | succ k ih =>
    intro hk m
    have hk' : k ≤ 32 := Nat.le_of_succ_le hk
    have hp : 0 < 2 ^ k := Nat.two_pow_pos k
    have hm := mod_two_pow_succ m k
    have h4 : 2 ^ (k + 1) = 2 * 2 ^ k := by ring
    have hlt : m / 2 % 2 ^ k < 2 ^ k := Nat.mod_lt _ hp
    rw [scanMask]
    by_cases h2 : m % 2 = 1
    · rw [if_pos h2, if_neg (by simp), scanMask_found (31 - k) k (m / 2)]
      have htz : tzAux (k + 1) m = 0 := by rw [tzAux, if_pos h2]
      rw [htz, if_neg (show ¬ m % 2 ^ (k + 1) = 0 by omega)]
      have hcond : (m / 2 % 2 ^ k = 2 ^ k - 1) ↔
          (m % 2 ^ (k + 1) = 2 ^ (k + 1) - 2 ^ 0) := by
        simp only [pow_zero]
        omega
      have hval : (31 - k : Nat) = 32 - (k + 1) + 0 := by omega
      rw [if_congr hcond (by rw [hval]) rfl]
    · rw [if_neg h2, if_neg (by simp), ih hk' (m / 2)]
      have htz : tzAux (k + 1) m = tzAux k (m / 2) + 1 := by
        rw [tzAux, if_neg h2]
      rw [htz]
      have htb : tzAux k (m / 2) ≤ k := tzAux_le k (m / 2)
      have hpt : 2 ^ tzAux k (m / 2) ≤ 2 ^ k :=
        Nat.pow_le_pow_right (by norm_num) htb
      have h5 : 2 ^ (tzAux k (m / 2) + 1) = 2 * 2 ^ tzAux k (m / 2) := by ring
      have hptp : 0 < 2 ^ tzAux k (m / 2) := Nat.two_pow_pos _
      have hc1 : (m / 2 % 2 ^ k = 0) ↔ (m % 2 ^ (k + 1) = 0) := by omega
      have hc2 : (m / 2 % 2 ^ k = 2 ^ k - 2 ^ tzAux k (m / 2)) ↔
          (m % 2 ^ (k + 1) = 2 ^ (k + 1) - 2 ^ (tzAux k (m / 2) + 1)) := by
        omega
      have hval : 32 - k + tzAux k (m / 2) =
          32 - (k + 1) + (tzAux k (m / 2) + 1) := by omega
      rw [if_congr hc1 rfl (if_congr hc2 (by rw [hval]) rfl)]

/-- All bits below `k` are one exactly for `2^k - 1`. -/
theorem allOnes_iff : ∀ k, ∀ m, m < 2 ^ k →
    ((∀ j, j < k → m.testBit j = true) ↔ m = 2 ^ k - 1) := by
  intro k
  induction k with
  | zero =>
    intro m hm
    have h0 : m = 0 := by omega
    subst h0
    simp
  | succ k ih =>
    intro m hm
    have hp : 0 < 2 ^ k := Nat.two_pow_pos k
    have h4 : 2 ^ (k + 1) = 2 * 2 ^ k := by ring
    have hm2 : m / 2 < 2 ^ k := by omega
    constructor
    · intro h
      have h0 : m % 2 = 1 := by
        have hb := h 0 (Nat.succ_pos k)
        rw [Nat.testBit_zero] at hb
        exact of_decide_eq_true hb
      have hup : ∀ j, j < k → (m / 2).testBit j = true := by
        intro j hj
        have hb := h (j + 1) (Nat.succ_lt_succ hj)
        rwa [Nat.testBit_succ] at hb
      have := (ih (m / 2) hm2).mp hup
      omega
    · intro h j hj
      have h0 : m % 2 = 1 := by omega
      have hd : m / 2 = 2 ^ k - 1 := by omega
      cases j with
      | zero => simp [Nat.testBit_zero, h0]
      | succ j =>
        rw [Nat.testBit_succ]
        exact (ih (m / 2) hm2).mpr hd j (Nat.lt_of_succ_lt_succ hj)

/-- Bridge between the claim-side contiguity predicate (every bit above a
one bit is one, i.e. the pattern `1*0*` read MSB→LSB) and the arithmetic
form `m = 2^k - 2^(trailing zeros)`. -/
theorem contigK_iff : ∀ k, ∀ m, m < 2 ^ k →
    ((∀ j, j < k → ∀ i, i < j → m.testBit i = true → m.testBit j = true) ↔
      m = 2 ^ k - 2 ^ tzAux k m) := by
  intro k
  induction k with
  | zero =>
    intro m hm
    have h0 : m = 0 := by omega
    subst h0
    simp [tzAux]
  | succ k ih =>
    intro m hm
    have hp : 0 < 2 ^ k := Nat.two_pow_pos k
    have h4 : 2 ^ (k + 1) = 2 * 2 ^ k := by ring
    have hm2 : m / 2 < 2 ^ k := by omega
    by_cases h2 : m % 2 = 1
    · have htz : tzAux (k + 1) m = 0 := by rw [tzAux, if_pos h2]
      rw [htz, pow_zero]
      constructor
      · intro h
        refine (allOnes_iff (k + 1) m hm).mp ?_
        intro j hj
        cases Nat.eq_zero_or_pos j with
        | inl hj0 => subst hj0; simp [Nat.testBit_zero, h2]
        | inr hjp =>
          exact h j hj 0 hjp (by simp [Nat.testBit_zero, h2])
      · intro h j hj _ _ _
        exact (allOnes_iff (k + 1) m hm).mpr h j hj
    · have htz : tzAux (k + 1) m = tzAux k (m / 2) + 1 := by
        rw [tzAux, if_neg h2]
      rw [htz]
      have h0 : m % 2 = 0 := by omega
      have hshift :
          (∀ j, j < k + 1 → ∀ i, i < j →
            m.testBit i = true → m.testBit j = true) ↔
          (∀ j, j < k → ∀ i, i < j →
            (m / 2).testBit i = true → (m / 2).testBit j = true) := by
        constructor
        · intro h j hj i hi hb
          have hc := h (j + 1) (Nat.succ_lt_succ hj) (i + 1)
            (Nat.succ_lt_succ hi) (by rwa [Nat.testBit_succ])
          rwa [Nat.testBit_succ] at hc
        · intro h j hj i hi hb
          cases i with
          | zero =>
            rw [Nat.testBit_zero] at hb
            have := of_decide_eq_true hb
            omega
          | succ i =>
            cases j with
            | zero => omega
            | succ j =>
              rw [Nat.testBit_succ] at hb ⊢
              exact h j (Nat.lt_of_succ_lt_succ hj) i
                (Nat.lt_of_succ_lt_succ hi) hb
      rw [hshift, ih (m / 2) hm2]
      have htb := tzAux_le k (m / 2)
      have hpt : 2 ^ tzAux k (m / 2) ≤ 2 ^ k :=
        Nat.pow_le_pow_right (by norm_num) htb
      have h5 : 2 ^ (tzAux k (m / 2) + 1) = 2 * 2 ^ tzAux k (m / 2) := by ring
      have hptp : 0 < 2 ^ tzAux k (m / 2) := Nat.two_pow_pos _
      omega

/-- The 32-bit mask scan of the source errors exactly on non-contiguous
masks and otherwise computes `num_zero` = the trailing-zero count. -/
theorem scanMask32_by_contiguity (m : Nat) (hm : m < 2 ^ 32) :
    scanMask 32 m false 32 =
      if maskContiguous m then some (trailingZeros32 m) else none := by
  have hmod : m % 2 ^ 32 = m := Nat.mod_eq_of_lt hm
  have h := scanMask_notFound 32 32 (le_refl 32) m
  rw [hmod] at h
  rw [h]
  have hbr := contigK_iff 32 m hm
  by_cases h0 : m = 0
  · subst h0
    rw [if_pos rfl, if_pos (by decide), trailingZeros32, tzAux_zero]
  · rw [if_neg h0]
    have hcond : (m = 2 ^ 32 - 2 ^ tzAux 32 m) ↔ maskContiguous m := hbr.symm
    have hval : some (32 - 32 + tzAux 32 m) = some (trailingZeros32 m) := by
      rw [trailingZeros32]
      norm_num
    rw [if_congr hcond hval rfl]

/-- A byte read from a list of bytes (default 0) is below 256. -/
theorem getD_byte_lt : ∀ (v : List Nat), (∀ b ∈ v, b < 256) → ∀ i, v.getD i 0 < 256 := by
  intro v
  induction v with
  | nil => intro _ i; simp [List.getD]
  | cons b rest ih =>
    intro hv i
    cases i with
    | zero => simpa using hv b (List.mem_cons_self b rest)
    | succ i =>
      simpa using ih (fun x hx => hv x (List.mem_cons_of_mem b hx)) i

/-- The mask extracted from a TLV of bytes is a 32-bit value. -/
theorem maskOfTLV_lt (t : MatchTLV) (hv : ∀ b ∈ t.value, b < 256) :
    maskOfTLV t < 2 ^ 32 := by
  have h4 := getD_byte_lt t.value hv 4
  have h5 := getD_byte_lt t.value hv 5
  have h6 := getD_byte_lt t.value hv 6
  have h7 := getD_byte_lt t.value hv 7
  rw [maskOfTLV]
  have b1 : t.value.getD 4 0 <<< 24 < 2 ^ 32 := by
    rw [Nat.shiftLeft_eq]
    calc t.value.getD 4 0 * 2 ^ 24 < 256 * 2 ^ 24 :=
          Nat.mul_lt_mul_of_pos_right h4 (by norm_num)
      _ ≤ 2 ^ 32 := by norm_num
  have b2 : t.value.getD 5 0 <<< 16 < 2 ^ 32 := by
    rw [Nat.shiftLeft_eq]
    calc t.value.getD 5 0 * 2 ^ 16 < 256 * 2 ^ 16 :=
          Nat.mul_lt_mul_of_pos_right h5 (by norm_num)
      _ ≤ 2 ^ 32 := by norm_num
  have b3 : t.value.getD 6 0 <<< 8 < 2 ^ 32 := by
    rw [Nat.shiftLeft_eq]
    calc t.value.getD 6 0 * 2 ^ 8 < 256 * 2 ^ 8 :=
          Nat.mul_lt_mul_of_pos_right h6 (by norm_num)
      _ ≤ 2 ^ 32 := by norm_num
  have b4 : t.value.getD 7 0 < 2 ^ 32 := lt_trans h7 (by norm_num)
  exact Nat.or_lt_two_pow (Nat.or_lt_two_pow (Nat.or_lt_two_pow b1 b2) b3) b4

/-- The match-length fold is monotone in its accumulator. -/
theorem ofl_match_foldl_ge : ∀ (l : List MatchTLV) (a : Nat),
    a ≤ l.foldl (fun a t => a + 4 + t.value.length) a := by
  intro l
  induction l with
  | nil => intro a; simp
  | cons t rest ih =>
    intro a
    simp only [List.foldl_cons]
    exact le_trans (by omega) (ih (a + 4 + t.value.length))

/-- A match containing at least one TLV has a nonzero stored length. -/
theorem ofl_match_length_app_ne (pre post : List MatchTLV) (t : MatchTLV) :
    ofl_match_length (pre ++ t :: post) ≠ 0 := by
  rw [ofl_match_length, List.foldl_append, List.foldl_cons]
  have h := ofl_match_foldl_ge post
    (List.foldl (fun a t => a + 4 + t.value.length) 0 pre + 4 + t.value.length)
  omega

/-- The LPM TLV scan ignores TLVs that are neither `IPV4_DST_W` nor
`IPV4_DST`. -/
theorem lpmScanTLVs_append_skip (p : Nat) :
    ∀ pre, (∀ u ∈ pre, u.header ≠ OXM_OF_IPV4_DST_W ∧ u.header ≠ OXM_OF_IPV4_DST) →
    ∀ rest, lpmScanTLVs p (pre ++ rest) = lpmScanTLVs p rest := by
  intro pre
  induction pre with
  | nil => intro _ rest; rfl
  | cons u pre ih =>
    intro h rest
    have hu := h u (List.mem_cons_self u pre)
    simp only [List.cons_append, lpmScanTLVs]
    rw [if_neg hu.1, if_neg hu.2]
    exact ih (fun x hx => h x (List.mem_cons_of_mem u hx)) rest

/-- C5: for a flow-mod `ADD` into table 61 from a non-slave sender whose
actions validate and whose match carries one IPv4-destination TLV (any other
TLVs being unrelated), `pipeline_handle_flow_mod` returns
`BAD_MATCH/BAD_NW_ADDR_MASK` exactly when the 32-bit wildcard mask is
non-contiguous, returns `FLOW_MOD_FAILED/BAD_PRIORITY` exactly when the mask
is contiguous but the priority differs from 32 minus the mask's
trailing-zero count, and for an exact `IPV4_DST` TLV returns
`FLOW_MOD_FAILED/BAD_PRIORITY` exactly when the priority differs from 32. -/
theorem flow_mod_table61_lpm_validation {σ : Type} (N role : Nat)
    (sortInsts : List OflInstruction → List OflInstruction)
    (vald : List Nat → Nat) (chk : OflMsgFlowMod → List Nat → Nat)
    (ftmod : Nat → OflMsgFlowMod → σ → σ × FtRes) (cloneErr : Nat)
    (msg : OflMsgFlowMod) (st : σ) (pre post : List MatchTLV) (tlv : MatchTLV)
    (hrole : ¬ role = OFPCR_ROLE_SLAVE)
    (htbl : msg.table_id = 61) (hcmd : msg.command = OFPFC_ADD)
    (hmatch : msg.mtch = pre ++ tlv :: post)
    (hothers : ∀ u ∈ pre ++ post,
      u.header ≠ OXM_OF_IPV4_DST_W ∧ u.header ≠ OXM_OF_IPV4_DST)
    (hvalid : validateInsts vald chk
      { msg with instructions := sortInsts msg.instructions }
      (sortInsts msg.instructions) = 0)
    (hdisp : (ftmod 61 { msg with instructions := sortInsts msg.instructions }
      st).2.err = 0)
    (hbytes : ∀ b ∈ tlv.value, b < 256) :
    (tlv.header = OXM_OF_IPV4_DST_W →
      (((pipeline_handle_flow_mod N role sortInsts vald chk ftmod cloneErr
            msg st).2.2 =
          ofl_error OFPET_BAD_MATCH OFPBMC_BAD_NW_ADDR_MASK ↔
        ¬ maskContiguous (maskOfTLV tlv)) ∧
       ((pipeline_handle_flow_mod N role sortInsts vald chk ftmod cloneErr
            msg st).2.2 =
          ofl_error OFPET_FLOW_MOD_FAILED OFPFMFC_BAD_PRIORITY ↔
        maskContiguous (maskOfTLV tlv) ∧
          ¬ msg.priority = 32 - trailingZeros32 (maskOfTLV tlv)))) ∧
    (tlv.header = OXM_OF_IPV4_DST →
      ((pipeline_handle_flow_mod N role sortInsts vald chk ftmod cloneErr
            msg st).2.2 =
          ofl_error OFPET_FLOW_MOD_FAILED OFPFMFC_BAD_PRIORITY ↔
        ¬ msg.priority = 32)) := by
  set msgS : OflMsgFlowMod :=
    { msg with instructions := sortInsts msg.instructions } with hmsgS
  have hSt : msgS.table_id = 61 := htbl
  have hSc : msgS.command = OFPFC_ADD := hcmd
  have hSm : msgS.mtch = pre ++ tlv :: post := hmatch
  have hSp : msgS.priority = msg.priority := rfl
  have hSi : msgS.instructions = sortInsts msg.instructions := rfl
  have hpre : ∀ u ∈ pre,
      u.header ≠ OXM_OF_IPV4_DST_W ∧ u.header ≠ OXM_OF_IPV4_DST :=
    fun u hu => hothers u (List.mem_append_left post hu)
  have hpost : ∀ u ∈ post,
      u.header ≠ OXM_OF_IPV4_DST_W ∧ u.header ≠ OXM_OF_IPV4_DST :=
    fun u hu => hothers u (List.mem_append_right pre hu)
  have hskippost : lpmScanTLVs msg.priority post = 0 := by
    have h := lpmScanTLVs_append_skip msg.priority post hpost []
    simpa using h
  have hlpm : lpmCheck msgS = lpmScanTLVs msg.priority (tlv :: post) := by
    rw [lpmCheck, if_pos (And.intro hSt hSc), hSm, hSp]
    rw [if_pos (ofl_match_length_app_ne pre post tlv)]
    rw [lpmScanTLVs_append_skip msg.priority pre hpre (tlv :: post)]
  have hdd : (flowModDispatch N ftmod cloneErr msgS st).2.2 = 0 := by
    rw [flowModDispatch, hSt]
    rw [if_neg (by norm_num)]
    rcases hft : ftmod 61 msgS st with ⟨st1, r⟩
    rw [hft] at hdisp
    have hre : r.err = 0 := hdisp
    dsimp only
    rw [if_neg (by simp [hre])]
  have hkey : (pipeline_handle_flow_mod N role sortInsts vald chk ftmod
      cloneErr msg st).2.2 = lpmScanTLVs msg.priority (tlv :: post) := by
    rw [pipeline_handle_flow_mod, if_neg hrole]
    simp only [← hmsgS, hSi, hvalid, hlpm, ne_eq, not_true_eq_false,
      not_false_eq_true, if_false, ite_false]
    by_cases hz : lpmScanTLVs msg.priority (tlv :: post) = 0
    · rw [if_neg (by simp [hz])]
      rw [hz]
      exact hdd
    · rw [if_pos hz]
  rw [hkey]
  constructor
  · intro hw
    have hmask := maskOfTLV_lt tlv hbytes
    have hscan := scanMask32_by_contiguity (maskOfTLV tlv) hmask
    by_cases hcontig : maskContiguous (maskOfTLV tlv)
    · rw [if_pos hcontig] at hscan
      have hstepA : lpmScanTLVs msg.priority (tlv :: post) =
          if ¬ msg.priority = 32 - trailingZeros32 (maskOfTLV tlv) then
            ofl_error OFPET_FLOW_MOD_FAILED OFPFMFC_BAD_PRIORITY
          else lpmScanTLVs msg.priority post := by
        simp only [lpmScanTLVs]
        rw [if_pos hw, hscan]
      by_cases hprio : msg.priority = 32 - trailingZeros32 (maskOfTLV tlv)
      · rw [hstepA, if_neg (by simpa using hprio), hskippost]
        constructor
        · constructor
          · intro h0; exact absurd h0 (by decide)
          · intro hn; exact absurd hcontig hn
        · constructor
          · intro h0; exact absurd h0 (by decide)
          · rintro ⟨-, hne⟩; exact absurd hprio hne
      · rw [hstepA, if_pos hprio]
        constructor
        · constructor
          · intro h; exact absurd h (by decide)
          · intro hn; exact absurd hcontig hn
        · exact ⟨fun _ => ⟨hcontig, hprio⟩, fun _ => rfl⟩
    · rw [if_neg hcontig] at hscan
      have hstepB : lpmScanTLVs msg.priority (tlv :: post) =
          ofl_error OFPET_BAD_MATCH OFPBMC_BAD_NW_ADDR_MASK := by
        simp only [lpmScanTLVs]
        rw [if_pos hw, hscan]
      rw [hstepB]
      constructor
      · exact ⟨fun _ => hcontig, fun _ => rfl⟩
      · constructor
        · intro h; exact absurd h (by decide)
        · rintro ⟨hc, -⟩; exact absurd hc hcontig
  · intro hd
    have hW : ¬ tlv.header = OXM_OF_IPV4_DST_W := by rw [hd]; decide
    have hstepC : lpmScanTLVs msg.priority (tlv :: post) =
        if ¬ msg.priority = 32 then
          ofl_error OFPET_FLOW_MOD_FAILED OFPFMFC_BAD_PRIORITY
        else lpmScanTLVs msg.priority post := by
      simp only [lpmScanTLVs]
      rw [if_neg hW, if_pos hd]
    by_cases hp : msg.priority = 32
    · rw [hstepC, if_neg (by simpa using hp), hskippost]
      constructor
      · intro h0; exact absurd h0 (by decide)
      · intro hn; exact absurd hp hn
    · rw [hstepC, if_pos hp]
      exact ⟨fun _ => hp, fun _ => rfl⟩

/-- Witness for C5: the non-contiguous mask `255.0.255.0` on an ADD into
table 61 is rejected with `BAD_MATCH/BAD_NW_ADDR_MASK`. -/
theorem flow_mod_table61_lpm_validation_witness :
    c5msg.table_id = 61 ∧ c5msg.command = OFPFC_ADD ∧
    ¬ maskContiguous (maskOfTLV c5tlv) ∧
    (pipeline_handle_flow_mod 64 OFPCR_ROLE_MASTER id (fun _ => 0)
        (fun _ _ => 0) ftOk 0 c5msg 0).2.2 =
      ofl_error OFPET_BAD_MATCH OFPBMC_BAD_NW_ADDR_MASK := by
  refine ⟨rfl, rfl, by decide, ?_⟩
  exact ((flow_mod_table61_lpm_validation 64 OFPCR_ROLE_MASTER id (fun _ => 0)
    (fun _ _ => 0) ftOk 0 c5msg 0 [] [] c5tlv (by decide) rfl rfl rfl
    (by simp) rfl rfl (by decide)).1 rfl).1.mpr (by decide)

/-- C6: for a flow-mod `ADD` into table 62 from a non-slave sender that
validates, succeeds and returns an installed entry, the handler installs
into table 63 the clone of the message with every `ETH_DST` OXM header
replaced by `ETH_SRC` and vice versa; if the clone installation succeeds the
table-62 entry and the table-63 entry are cross-linked
(`sync_slave`/`sync_master`); if it fails, the error is suppressed and no
link is set; in both cases the handler returns 0. -/
theorem flow_mod_table62_mirror {σ : Type} (N role : Nat)
    (sortInsts : List OflInstruction → List OflInstruction)
    (vald : List Nat → Nat) (chk : OflMsgFlowMod → List Nat → Nat)
    (ftmod : Nat → OflMsgFlowMod → σ → σ × FtRes) (cloneErr : Nat)
    (msg : OflMsgFlowMod) (st : σ) (m62 : Nat) (st1 st2 : σ) (r rs : FtRes)
    (hrole : ¬ role = OFPCR_ROLE_SLAVE)
    (htbl : msg.table_id = 62) (hcmd : msg.command = OFPFC_ADD)
    (hvalid : validateInsts vald chk
      { msg with instructions := sortInsts msg.instructions }
      (sortInsts msg.instructions) = 0)
    (hclone : cloneErr = 0)
    (hft : ftmod 62 { msg with instructions := sortInsts msg.instructions } st
      = (st1, r))
    (hr : r.err = 0) (hrf : r.flow = some m62)
    (hft2 : ftmod 63 (mirrorClone
      { msg with instructions := sortInsts msg.instructions }) st1
      = (st2, rs)) :
    FMEvent.dispatched 63 (mirrorClone
        { msg with instructions := sortInsts msg.instructions }) ∈
      (pipeline_handle_flow_mod N role sortInsts vald chk ftmod cloneErr
        msg st).2.1 ∧
    (pipeline_handle_flow_mod N role sortInsts vald chk ftmod cloneErr
        msg st).2.2 = 0 ∧
    (∀ s63, rs.err = 0 → rs.flow = some s63 →
      FMEvent.syncSet m62 s63 ∈
        (pipeline_handle_flow_mod N role sortInsts vald chk ftmod cloneErr
          msg st).2.1) ∧
    (¬ rs.err = 0 → ∀ a b,
      FMEvent.syncSet a b ∉
        (pipeline_handle_flow_mod N role sortInsts vald chk ftmod cloneErr
          msg st).2.1) := by
  subst hclone
  set msgS : OflMsgFlowMod :=
    { msg with instructions := sortInsts msg.instructions } with hmsgS
  have hSt : msgS.table_id = 62 := htbl
  have hSc : msgS.command = OFPFC_ADD := hcmd
  have hSi : msgS.instructions = sortInsts msg.instructions := rfl
  have hlpm0 : lpmCheck msgS = 0 := by
    rw [lpmCheck, if_neg]
    rw [hSt, hSc]
    decide
  have hmain : pipeline_handle_flow_mod N role sortInsts vald chk ftmod 0
      msg st = flowModDispatch N ftmod 0 msgS st := by
    rw [pipeline_handle_flow_mod, if_neg hrole]
    simp only [← hmsgS, hSi, hvalid, hlpm0, ne_eq, not_true_eq_false,
      not_false_eq_true, if_false, ite_false]
  rcases hflowcase : rs.flow with _ | sv
  · have hfull : pipeline_handle_flow_mod N role sortInsts vald chk ftmod 0
        msg st =
        (st2, FMEvent.dispatched 62 msgS ::
          (([FMEvent.dispatched 63 (mirrorClone msgS),
             FMEvent.freedClone (!rs.match_kept) (!rs.insts_kept)] ++
            (if rs.err = 0 then ([] : List FMEvent) else [])) ++
           (if (msgS.command = OFPFC_ADD ∨ msgS.command = OFPFC_MODIFY ∨
                msgS.command = OFPFC_MODIFY_STRICT) ∧
               msgS.buffer_id ≠ NO_BUFFER
            then [FMEvent.replayedBuffer msgS.buffer_id] else []) ++
           [FMEvent.freed (!r.match_kept) (!r.insts_kept)]), 0) := by
      rw [hmain, flowModDispatch, hSt]
      rw [if_neg (by norm_num), hft]
      dsimp only
      rw [if_neg (by simp [hr]), mirrorStep]
      rw [if_pos (And.intro hSt (And.intro hSc (by rw [hrf]; rfl)))]
      rw [if_pos rfl]
      dsimp only
      rw [hft2]
      dsimp only
      rw [hrf, hflowcase]
    rw [hfull]
    refine ⟨by simp, rfl, ?_, ?_⟩
    · intro s63 _ hflow63
      exact Option.noConfusion hflow63
    · intro hne a b
      rw [if_neg hne]
      by_cases hbuf : (msgS.command = OFPFC_ADD ∨ msgS.command = OFPFC_MODIFY ∨
          msgS.command = OFPFC_MODIFY_STRICT) ∧ msgS.buffer_id ≠ NO_BUFFER
      · rw [if_pos hbuf]
        simp
      · rw [if_neg hbuf]
        simp
  · have hfull : pipeline_handle_flow_mod N role sortInsts vald chk ftmod 0
        msg st =
        (st2, FMEvent.dispatched 62 msgS ::
          (([FMEvent.dispatched 63 (mirrorClone msgS),
             FMEvent.freedClone (!rs.match_kept) (!rs.insts_kept)] ++
            (if rs.err = 0 then [FMEvent.syncSet m62 sv] else [])) ++
           (if (msgS.command = OFPFC_ADD ∨ msgS.command = OFPFC_MODIFY ∨
                msgS.command = OFPFC_MODIFY_STRICT) ∧
               msgS.buffer_id ≠ NO_BUFFER
            then [FMEvent.replayedBuffer msgS.buffer_id] else []) ++
           [FMEvent.freed (!r.match_kept) (!r.insts_kept)]), 0) := by
      rw [hmain, flowModDispatch, hSt]
      rw [if_neg (by norm_num), hft]
      dsimp only
      rw [if_neg (by simp [hr]), mirrorStep]
      rw [if_pos (And.intro hSt (And.intro hSc (by rw [hrf]; rfl)))]
      rw [if_pos rfl]
      dsimp only
      rw [hft2]
      dsimp only
      rw [hrf, hflowcase]
    rw [hfull]
    refine ⟨by simp, rfl, ?_, ?_⟩
    · intro s63 hrs hflow63
      cases hflow63
      rw [if_pos hrs]
      simp
    · intro hne a b
      rw [if_neg hne]
      by_cases hbuf : (msgS.command = OFPFC_ADD ∨ msgS.command = OFPFC_MODIFY ∨
          msgS.command = OFPFC_MODIFY_STRICT) ∧ msgS.buffer_id ≠ NO_BUFFER
      · rw [if_pos hbuf]
        simp
      · rw [if_neg hbuf]
        simp

/-- Witness for C6: the mirror step dispatches the swapped clone to table
63, links entries 162 and 163, and the handler returns 0. -/
theorem flow_mod_table62_mirror_witness :
    FMEvent.dispatched 63 (mirrorClone c6msg) ∈
      (pipeline_handle_flow_mod 64 OFPCR_ROLE_MASTER id (fun _ => 0)
        (fun _ _ => 0) ft62 0 c6msg 0).2.1 ∧
    (pipeline_handle_flow_mod 64 OFPCR_ROLE_MASTER id (fun _ => 0)
        (fun _ _ => 0) ft62 0 c6msg 0).2.2 = 0 ∧
    FMEvent.syncSet 162 163 ∈
      (pipeline_handle_flow_mod 64 OFPCR_ROLE_MASTER id (fun _ => 0)
        (fun _ _ => 0) ft62 0 c6msg 0).2.1 := by
  have h := flow_mod_table62_mirror 64 OFPCR_ROLE_MASTER id (fun _ => 0)
    (fun _ _ => 0) ft62 0 c6msg 0 162 1 2 ⟨0, false, false, some 162⟩
    ⟨0, false, false, some 163⟩ (by decide) rfl rfl rfl rfl rfl rfl rfl rfl
  exact ⟨h.1, h.2.1, h.2.2.1 163 rfl rfl⟩

/-- The all-tables delete loop under an error-free oracle: it visits every
remaining table in order, ends in the state after the last application, and
returns 0. -/
theorem deleteAllLoop_ok {σ : Type}
    (ftmod : Nat → OflMsgFlowMod → σ → σ × FtRes) (msg : OflMsgFlowMod)
    (N : Nat) (st0 : σ)
    (hok : ∀ j, j < N → (ftmod j msg (iterState ftmod msg st0 j)).2.err = 0) :
    ∀ n i mk ik, N - i = n → i ≤ N →
      (deleteAllLoop ftmod msg N (iterState ftmod msg st0 i) i mk ik).1 =
        iterState ftmod msg st0 N ∧
      dispatchedTables
        (deleteAllLoop ftmod msg N (iterState ftmod msg st0 i) i mk ik).2.1 =
        List.range' i (N - i) ∧
      (deleteAllLoop ftmod msg N (iterState ftmod msg st0 i) i mk ik).2.2
        = 0 := by
  intro n
  induction n with
  | zero =>
    intro i mk ik hni hi
    have hiN : i = N := by omega
    subst hiN
    rw [deleteAllLoop, dif_neg (by omega)]
    refine ⟨rfl, ?_, rfl⟩
    simp [dispatchedTables, FMEvent.dispatchTable]
  | succ n ih =>
    intro i mk ik hni hi
    have hlt : i < N := by omega
    have hstep : iterState ftmod msg st0 (i + 1) =
        (ftmod i msg (iterState ftmod msg st0 i)).1 := by
      rw [iterState]
    rw [deleteAllLoop, dif_pos hlt]
    rcases hp : ftmod i msg (iterState ftmod msg st0 i) with ⟨st', r⟩
    have hre : r.err = 0 := by
      have := hok i hlt
      rw [hp] at this
      exact this
    dsimp only
    rw [if_neg (by simp [hre])]
    have hst' : iterState ftmod msg st0 (i + 1) = st' := by rw [hstep, hp]
    have hrec := ih (i + 1) r.match_kept r.insts_kept (by omega) (by omega)
    rw [hst'] at hrec
    rcases hq : deleteAllLoop ftmod msg N st' (i + 1) r.match_kept
        r.insts_kept with ⟨st'', evs, e⟩
    rw [hq] at hrec
    dsimp only
    refine ⟨hrec.1, ?_, hrec.2.2⟩
    have hr' : dispatchedTables (FMEvent.dispatched i msg :: evs) =
        i :: dispatchedTables evs := rfl
    rw [hr', hrec.2.1]
    rw [show N - i = (N - (i + 1)) + 1 by omega, List.range'_succ]

/-- The all-tables delete loop when table `k` is the first to fail: it
visits tables `i..k`, stops, keeps the state after the failing call and
returns its error. -/
theorem deleteAllLoop_err {σ : Type}
    (ftmod : Nat → OflMsgFlowMod → σ → σ × FtRes) (msg : OflMsgFlowMod)
    (N : Nat) (st0 : σ) (k : Nat) (hkN : k < N)
    (hok : ∀ j, j < k → (ftmod j msg (iterState ftmod msg st0 j)).2.err = 0)
    (hbad : ¬ (ftmod k msg (iterState ftmod msg st0 k)).2.err = 0) :
    ∀ n i mk ik, k - i = n → i ≤ k →
      (deleteAllLoop ftmod msg N (iterState ftmod msg st0 i) i mk ik).1 =
        (ftmod k msg (iterState ftmod msg st0 k)).1 ∧
      dispatchedTables
        (deleteAllLoop ftmod msg N (iterState ftmod msg st0 i) i mk ik).2.1 =
        List.range' i (k + 1 - i) ∧
      (deleteAllLoop ftmod msg N (iterState ftmod msg st0 i) i mk ik).2.2
        = (ftmod k msg (iterState ftmod msg st0 k)).2.err := by
  intro n
  induction n with
  | zero =>
    intro i mk ik hni hi
    have hik : i = k := by omega
    subst hik
    rw [deleteAllLoop, dif_pos (by omega)]
    rcases hp : ftmod i msg (iterState ftmod msg st0 i) with ⟨st', r⟩
    have hre : ¬ r.err = 0 := by
      rw [hp] at hbad
      exact hbad
    dsimp only
    rw [if_pos hre]
    refine ⟨rfl, ?_, rfl⟩
    rw [show i + 1 - i = 1 by omega]
    simp [dispatchedTables, FMEvent.dispatchTable]
  | succ n ih =>
    intro i mk ik hni hi
    have hlt : i < k := by omega
    have hstep : iterState ftmod msg st0 (i + 1) =
        (ftmod i msg (iterState ftmod msg st0 i)).1 := by
      rw [iterState]
    rw [deleteAllLoop, dif_pos (by omega)]
    rcases hp : ftmod i msg (iterState ftmod msg st0 i) with ⟨st', r⟩
    have hre : r.err = 0 := by
      have := hok i hlt
      rw [hp] at this
      exact this
    dsimp only
    rw [if_neg (by simp [hre])]
    have hst' : iterState ftmod msg st0 (i + 1) = st' := by rw [hstep, hp]
    have hrec := ih (i + 1) r.match_kept r.insts_kept (by omega) (by omega)
    rw [hst'] at hrec
    rcases hq : deleteAllLoop ftmod msg N st' (i + 1) r.match_kept
        r.insts_kept with ⟨st'', evs, e⟩
    rw [hq] at hrec
    dsimp only
    refine ⟨hrec.1, ?_, hrec.2.2⟩
    have hr' : dispatchedTables (FMEvent.dispatched i msg :: evs) =
        i :: dispatchedTables evs := rfl
    rw [hr', hrec.2.1]
    rw [show k + 1 - i = (k + 1 - (i + 1)) + 1 by omega, List.range'_succ]

/-- C9: for a flow-mod with `table_id = 0xff` from a non-slave sender whose
actions validate: DELETE/DELETE_STRICT is applied to every table in order
`0..N-1` — error-free, the handler ends in the state after the last
application, dispatched to every table once in order, and returns 0; when
table `k` is the first to fail, exactly tables `0..k` were dispatched to (the
earlier deletions kept in the final state) and the failing error is
returned; any other command is rejected with
`FLOW_MOD_FAILED/BAD_TABLE_ID` and no table is touched. -/
theorem flow_mod_all_tables_delete {σ : Type} (N role : Nat)
    (sortInsts : List OflInstruction → List OflInstruction)
    (vald : List Nat → Nat) (chk : OflMsgFlowMod → List Nat → Nat)
    (ftmod : Nat → OflMsgFlowMod → σ → σ × FtRes) (cloneErr : Nat)
    (msg : OflMsgFlowMod) (st : σ)
    (hrole : ¬ role = OFPCR_ROLE_SLAVE)
    (htbl : msg.table_id = 0xff)
    (hvalid : validateInsts vald chk
      { msg with instructions := sortInsts msg.instructions }
      (sortInsts msg.instructions) = 0) :
    ((msg.command = OFPFC_DELETE ∨ msg.command = OFPFC_DELETE_STRICT) →
      ((∀ j, j < N → (ftmod j
          { msg with instructions := sortInsts msg.instructions }
          (iterState ftmod
            { msg with instructions := sortInsts msg.instructions } st j)).2.err
          = 0) →
        (pipeline_handle_flow_mod N role sortInsts vald chk ftmod cloneErr
            msg st).1 =
          iterState ftmod
            { msg with instructions := sortInsts msg.instructions } st N ∧
        dispatchedTables (pipeline_handle_flow_mod N role sortInsts vald chk
            ftmod cloneErr msg st).2.1 = List.range N ∧
        (pipeline_handle_flow_mod N role sortInsts vald chk ftmod cloneErr
            msg st).2.2 = 0) ∧
      (∀ k, k < N →
        (∀ j, j < k → (ftmod j
            { msg with instructions := sortInsts msg.instructions }
            (iterState ftmod
              { msg with instructions := sortInsts msg.instructions } st
              j)).2.err = 0) →
        ¬ (ftmod k { msg with instructions := sortInsts msg.instructions }
            (iterState ftmod
              { msg with instructions := sortInsts msg.instructions } st
              k)).2.err = 0 →
        (pipeline_handle_flow_mod N role sortInsts vald chk ftmod cloneErr
            msg st).1 =
          (ftmod k { msg with instructions := sortInsts msg.instructions }
            (iterState ftmod
              { msg with instructions := sortInsts msg.instructions } st
              k)).1 ∧
        dispatchedTables (pipeline_handle_flow_mod N role sortInsts vald chk
            ftmod cloneErr msg st).2.1 = List.range (k + 1) ∧
        (pipeline_handle_flow_mod N role sortInsts vald chk ftmod cloneErr
            msg st).2.2 =
          (ftmod k { msg with instructions := sortInsts msg.instructions }
            (iterState ftmod
              { msg with instructions := sortInsts msg.instructions } st
              k)).2.err)) ∧
    (¬ (msg.command = OFPFC_DELETE ∨ msg.command = OFPFC_DELETE_STRICT) →
      pipeline_handle_flow_mod N role sortInsts vald chk ftmod cloneErr
        msg st =
        (st, [], ofl_error OFPET_FLOW_MOD_FAILED OFPFMFC_BAD_TABLE_ID)) := by
  set msgS : OflMsgFlowMod :=
    { msg with instructions := sortInsts msg.instructions } with hmsgS
  have hSt : msgS.table_id = 0xff := htbl
  have hSi : msgS.instructions = sortInsts msg.instructions := rfl
  have hlpm0 : lpmCheck msgS = 0 := by
    rw [lpmCheck, if_neg]
    rw [hSt]
    simp
  have hmain : pipeline_handle_flow_mod N role sortInsts vald chk ftmod
      cloneErr msg st = flowModDispatch N ftmod cloneErr msgS st := by
    rw [pipeline_handle_flow_mod, if_neg hrole]
    simp only [← hmsgS, hSi, hvalid, hlpm0, ne_eq, not_true_eq_false,
      not_false_eq_true, if_false, ite_false]
  refine ⟨?_, ?_⟩
  · intro hcmd
    have hdisp : flowModDispatch N ftmod cloneErr msgS st =
        deleteAllLoop ftmod msgS N st 0 false false := by
      rw [flowModDispatch, hSt, if_pos rfl, if_pos hcmd]
    constructor
    · intro hok
      have h := deleteAllLoop_ok ftmod msgS N st hok N 0 false false
        (by omega) (by omega)
      rw [show iterState ftmod msgS st 0 = st from rfl] at h
      rw [hmain, hdisp]
      refine ⟨h.1, ?_, h.2.2⟩
      rw [h.2.1, Nat.sub_zero, List.range_eq_range']
    · intro k hk hok hbad
      have h := deleteAllLoop_err ftmod msgS N st k hk hok hbad k 0
        false false (by omega) (by omega)
      rw [show iterState ftmod msgS st 0 = st from rfl] at h
      rw [hmain, hdisp]
      refine ⟨h.1, ?_, h.2.2⟩
      rw [h.2.1, Nat.sub_zero, List.range_eq_range']
  · intro hncmd
    rw [hmain, flowModDispatch, hSt, if_pos rfl, if_neg hncmd]

/-- Witness for C9: with three tables and an error-free delete oracle the
handler dispatches to tables 0, 1, 2 and returns 0, and an ADD with
`table_id = 0xff` is rejected with `BAD_TABLE_ID`. -/
theorem flow_mod_all_tables_delete_witness :
    (pipeline_handle_flow_mod 3 OFPCR_ROLE_MASTER id (fun _ => 0)
        (fun _ _ => 0) ftDel 0 c9msg 0).2.2 = 0 ∧
    dispatchedTables (pipeline_handle_flow_mod 3 OFPCR_ROLE_MASTER id
        (fun _ => 0) (fun _ _ => 0) ftDel 0 c9msg 0).2.1 = List.range 3 ∧
    pipeline_handle_flow_mod 3 OFPCR_ROLE_MASTER id (fun _ => 0)
        (fun _ _ => 0) ftDel 0 c9msgAdd 0 =
      (0, [], ofl_error OFPET_FLOW_MOD_FAILED OFPFMFC_BAD_TABLE_ID) := by
  have h := flow_mod_all_tables_delete 3 OFPCR_ROLE_MASTER id (fun _ => 0)
    (fun _ _ => 0) ftDel 0 c9msg 0 (by decide) rfl rfl
  have h2 := flow_mod_all_tables_delete 3 OFPCR_ROLE_MASTER id (fun _ => 0)
    (fun _ _ => 0) ftDel 0 c9msgAdd 0 (by decide) rfl rfl
  have hall := (h.1 (Or.inl rfl)).1 (fun j hj => rfl)
  exact ⟨hall.2.2, hall.2.1, h2.2 (by decide)⟩

/-- C7: table-features multipart reassembly.  With a pending buffer and a
different XID the handler fails with `MULTIPART_BUFFER_OVERFLOW` leaving the
buffer in place; with a matching XID the fragment is merged — returning 0
and holding the merged buffer while `REQ_MORE` is still set, otherwise
processing the completed request (features applied, buffer cleared, reply
emitted); with no pending buffer and `REQ_MORE` set, a reassembly buffer is
allocated from the fragment and stored keyed by the sender's XID, with
return 0. -/
theorem tf_request_reassembly (N : Nat) (pl : Pipeline)
    (remote : RemoteState) (xid now : Nat) (msg : TFReq) :
    (∀ pending, remote.mp_req_msg = some pending →
      ¬ xid = remote.mp_req_xid →
      pipeline_handle_tf_request N pl remote xid now msg =
        (pl, remote, [],
         ofl_error OFPET_BAD_REQUEST OFPBRC_MULTIPART_BUFFER_OVERFLOW)) ∧
    (∀ pending, remote.mp_req_msg = some pending →
      xid = remote.mp_req_xid →
      (¬ msg.flags &&& OFPMPF_REQ_MORE = 0 →
        pipeline_handle_tf_request N pl remote xid now msg =
          (pl, { remote with
              mp_req_msg := some (ofl_msg_merge_tf pending msg).1,
              mp_req_lasttime := now }, [], 0)) ∧
      (msg.flags &&& OFPMPF_REQ_MORE = 0 →
        pipeline_handle_tf_request N pl remote xid now msg =
          (applyFeatures pl (ofl_msg_merge_tf pending msg).1,
           { remote with
             mp_req_msg := none
             mp_req_xid := 0
             mp_req_lasttime := now },
           featuresReplyChunks
             (applyFeatures pl (ofl_msg_merge_tf pending msg).1) N, 0))) ∧
    (remote.mp_req_msg = none → ¬ msg.flags &&& OFPMPF_REQ_MORE = 0 →
      pipeline_handle_tf_request N pl remote xid now msg =
        (pl, ⟨some (ofl_msg_merge_tf emptyTFReq msg).1, xid, now⟩, [], 0)) := by
  refine ⟨?_, ?_, ?_⟩
  · intro pending hpend hxid
    rw [pipeline_handle_tf_request, hpend]
    dsimp only
    rw [if_pos hxid]
  · intro pending hpend hxid
    constructor
    · intro hmore
      rw [pipeline_handle_tf_request, hpend]
      dsimp only
      rw [if_neg (by simpa using hxid)]
      have h2 : (ofl_msg_merge_tf pending msg).2 = false := by
        rw [ofl_msg_merge_tf]
        simpa using hmore
      rw [h2]
      rfl
    · intro hnomore
      rw [pipeline_handle_tf_request, hpend]
      dsimp only
      rw [if_neg (by simpa using hxid)]
      have h2 : (ofl_msg_merge_tf pending msg).2 = true := by
        rw [ofl_msg_merge_tf]
        simpa using hnomore
      rw [h2]
      rfl
  · intro hnone hmore
    rw [pipeline_handle_tf_request, hnone]
    dsimp only
    rw [if_pos hmore]

/-- A concrete pending fragment buffer for the C7 witness. -/
def c7pending : TFReq := ⟨OFPMPF_REQ_MORE, 1, [⟨2, 5⟩]⟩

/-- A concrete remote holding `c7pending` under XID 17. -/
def c7remote : RemoteState := ⟨some c7pending, 17, 40⟩

/-- A concrete final fragment (REQ_MORE clear). -/
def c7frag : TFReq := ⟨0, 1, [⟨3, 6⟩]⟩

/-- Witness for C7 at concrete remotes and fragments: the wrong XID is
rejected leaving the buffer; the matching final fragment completes the
request and clears the buffer; an initial fragment on an idle remote is
stored under the sender's XID. -/
theorem tf_request_reassembly_witness :
    pipeline_handle_tf_request 8 c10pl c7remote 18 41 c7frag =
      (c10pl, c7remote, [],
       ofl_error OFPET_BAD_REQUEST OFPBRC_MULTIPART_BUFFER_OVERFLOW) ∧
    pipeline_handle_tf_request 8 c10pl c7remote 17 41 c7frag =
      (applyFeatures c10pl (ofl_msg_merge_tf c7pending c7frag).1,
       { c7remote with
         mp_req_msg := none
         mp_req_xid := 0
         mp_req_lasttime := 41 },
       featuresReplyChunks
         (applyFeatures c10pl (ofl_msg_merge_tf c7pending c7frag).1) 8, 0) ∧
    pipeline_handle_tf_request 8 c10pl ⟨none, 0, 0⟩ 19 42 c7pending =
      (c10pl, ⟨some (ofl_msg_merge_tf emptyTFReq c7pending).1, 19, 42⟩,
       [], 0) :=
  ⟨(tf_request_reassembly 8 c10pl c7remote 18 41 c7frag).1 c7pending rfl
      (by decide),
   ((tf_request_reassembly 8 c10pl c7remote 17 41 c7frag).2.1 c7pending rfl
      rfl).2 (by decide),
   (tf_request_reassembly 8 c10pl ⟨none, 0, 0⟩ 19 42 c7pending).2.2 rfl
      (by decide)⟩

/-- The chunk emitter always emits at least one chunk (it is a do-while). -/
theorem mpChunkLoop_ne_nil {α : Type} (payload : Nat → α) (szm1 N j : Nat) :
    mpChunkLoop payload szm1 N j ≠ [] := by
  rw [mpChunkLoop]
  exact List.cons_ne_nil _ _

/-- Every chunk carries exactly `szm1 + 1` payload entries. -/
theorem mpChunkLoop_sizes {α : Type} (payload : Nat → α) (szm1 N : Nat) :
    ∀ n j, N - j ≤ n → ∀ c ∈ mpChunkLoop payload szm1 N j,
      c.payload.length = szm1 + 1 := by
  intro n
  induction n with
  | zero =>
    intro j hj c hc
    rw [mpChunkLoop] at hc
    rw [dif_neg (by omega)] at hc
    have h1 := List.mem_singleton.mp hc
    subst h1
    simp
  | succ n ih =>
    intro j hj c hc
    rw [mpChunkLoop] at hc
    by_cases h : j + (szm1 + 1) < N
    · rw [dif_pos h] at hc
      rcases List.mem_cons.mp hc with h1 | h2
      · subst h1; simp
      · exact ih (j + (szm1 + 1)) (by omega) c h2
    · rw [dif_neg h] at hc
      have h1 := List.mem_singleton.mp hc
      subst h1
      simp

/-- Every payload entry of every chunk is `payload i` for some index. -/
theorem mpChunkLoop_payload_mem {α : Type} (payload : Nat → α) (szm1 N : Nat) :
    ∀ n j, N - j ≤ n → ∀ c ∈ mpChunkLoop payload szm1 N j, ∀ x ∈ c.payload,
      ∃ i, x = payload i := by
  intro n
  induction n with
  | zero =>
    intro j hj c hc x hx
    rw [mpChunkLoop] at hc
    rw [dif_neg (by omega)] at hc
    have h1 := List.mem_singleton.mp hc
    subst h1
    simp only [List.mem_map] at hx
    obtain ⟨i, _, hix⟩ := hx
    exact ⟨i, hix.symm⟩
  | succ n ih =>
    intro j hj c hc x hx
    rw [mpChunkLoop] at hc
    by_cases h : j + (szm1 + 1) < N
    · rw [dif_pos h] at hc
      rcases List.mem_cons.mp hc with h1 | h2
      · subst h1
        simp only [List.mem_map] at hx
        obtain ⟨i, _, hix⟩ := hx
        exact ⟨i, hix.symm⟩
      · exact ih (j + (szm1 + 1)) (by omega) c h2 x hx
    · rw [dif_neg h] at hc
      have h1 := List.mem_singleton.mp hc
      subst h1
      simp only [List.mem_map] at hx
      obtain ⟨i, _, hix⟩ := hx
      exact ⟨i, hix.symm⟩

/-- When the chunk width divides the remaining table count, the chunk
payloads concatenate to exactly the remaining table range, in order. -/
theorem mpChunkLoop_cover {α : Type} (payload : Nat → α) (szm1 N : Nat) :
    ∀ n j, N - j ≤ n → j < N → (szm1 + 1) ∣ (N - j) →
      ((mpChunkLoop payload szm1 N j).map (·.payload)).flatten =
        (List.range' j (N - j)).map payload := by
  intro n
  induction n with
  | zero => intro j h1 h2 _; omega
  | succ n ih =>
    intro j h1 h2 h3
    have hids : (List.range (szm1 + 1)).map (j + ·) =
        List.range' j (szm1 + 1) :=
      (List.range'_eq_map_range j (szm1 + 1)).symm
    rw [mpChunkLoop]
    by_cases h : j + (szm1 + 1) < N
    · have hdvd : (szm1 + 1) ∣ (N - (j + (szm1 + 1))) := by
        have hd := Nat.dvd_sub' h3 (dvd_refl (szm1 + 1))
        rwa [show N - j - (szm1 + 1) = N - (j + (szm1 + 1)) by omega] at hd
      rw [dif_pos h, List.map_cons, List.flatten_cons,
        ih (j + (szm1 + 1)) (by omega) h hdvd]
      rw [hids, ← List.map_append]
      have happ := List.range'_append j (szm1 + 1) (N - (j + (szm1 + 1))) 1
      rw [one_mul] at happ
      rw [show N - (j + (szm1 + 1)) + (szm1 + 1) = N - j by omega] at happ
      rw [happ]
    · rw [dif_neg h]
      have hNj : N - j = szm1 + 1 := by
        have hle := Nat.le_of_dvd (by omega) h3
        omega
      simp only [List.map_cons, List.map_nil, List.flatten_cons,
        List.flatten_nil, List.append_nil]
      rw [hids, hNj]

/-- `REPLY_MORE` on every chunk but the last, which has flags 0 (when the
chunk width divides the remaining table count). -/
theorem mpChunkLoop_flags {α : Type} (payload : Nat → α) (szm1 N : Nat) :
    ∀ n j, N - j ≤ n → j < N → (szm1 + 1) ∣ (N - j) →
      (∀ c ∈ (mpChunkLoop payload szm1 N j).dropLast,
        c.flags = OFPMPF_REPLY_MORE) ∧
      ((mpChunkLoop payload szm1 N j).getLast?).map MpChunk.flags =
        some 0 := by
  intro n
  induction n with
  | zero => intro j h1 h2 _; omega
  | succ n ih =>
    intro j h1 h2 h3
    rw [mpChunkLoop]
    by_cases h : j + (szm1 + 1) < N
    · have hdvd : (szm1 + 1) ∣ (N - (j + (szm1 + 1))) := by
        have hd := Nat.dvd_sub' h3 (dvd_refl (szm1 + 1))
        rwa [show N - j - (szm1 + 1) = N - (j + (szm1 + 1)) by omega] at hd
      rw [dif_pos h]
      have hrec := ih (j + (szm1 + 1)) (by omega) h hdvd
      have hne := mpChunkLoop_ne_nil payload szm1 N (j + (szm1 + 1))
      rcases hq : mpChunkLoop payload szm1 N (j + (szm1 + 1)) with _ | ⟨c2, rest⟩
      · exact absurd hq hne
      · rw [hq] at hrec
        constructor
        · intro c hc
          rw [List.dropLast_cons₂] at hc
          rcases List.mem_cons.mp hc with h1c | h2c
          · subst h1c
            dsimp only
            rw [if_neg (by omega)]
          · exact hrec.1 c h2c
        · rw [List.getLast?_cons_cons]
          exact hrec.2
    · rw [dif_neg h]
      have hNj : N - j = szm1 + 1 := by
        have hle := Nat.le_of_dvd (by omega) h3
        omega
      constructor
      · intro c hc
        simp at hc
      · simp only [List.getLast?_singleton, Option.map_some]
        rw [if_pos (by omega)]
        rfl

/-- The index components of an indexed chunk stream concatenate to the full
table range (specialisation of `mpChunkLoop_cover` to `(i, g i)` payloads
from table 0). -/
theorem mpChunkLoop_cover_fst {β : Type} (g : Nat → β) (szm1 N : Nat)
    (h0 : 0 < N) (hd : (szm1 + 1) ∣ N) :
    ((mpChunkLoop (fun i => (i, g i)) szm1 N 0).map
      fun c => c.payload.map Prod.fst).flatten = List.range N := by
  have hfc := mpChunkLoop_cover (fun i => (i, g i)) szm1 N N 0
    (by omega) h0 (by simpa using hd)
  simp only [Nat.sub_zero] at hfc
  have h2 := congrArg (List.map Prod.fst) hfc
  rw [List.map_flatten, List.map_map, List.map_map] at h2
  simp only [Function.comp_def] at h2
  simpa [List.range_eq_range'] using h2

/-- C8 counterexample: with `PIPELINE_TABLES = 72` — a multiple of 8 that is
at least 64, satisfying the claim's stated assumption — the table-desc reply
reads tables 0..79 (overrunning the table array) and `REPLY_MORE` stays set
on every chunk, the final one included: the chunk payloads do not cover
tables 0..71 exactly once and no final chunk has flags 0. -/
theorem table_desc_chunking_fails_at_multiple_of_8 :
    72 % 8 = 0 ∧ 64 ≤ 72 ∧
    ((descReplyChunks c10pl 100 72).map fun c =>
      c.payload.map Prod.fst).flatten = List.range' 0 80 ∧
    ¬ ((descReplyChunks c10pl 100 72).map fun c =>
      c.payload.map Prod.fst).flatten = List.range 72 ∧
    ∀ c ∈ descReplyChunks c10pl 100 72, c.flags = OFPMPF_REPLY_MORE := by
  have hcov : ((descReplyChunks c10pl 100 72).map fun c =>
      c.payload.map Prod.fst).flatten = List.range' 0 80 := by
    simp [descReplyChunks, mpChunkLoop]
    decide
  refine ⟨by norm_num, by norm_num, hcov, ?_, ?_⟩
  · rw [hcov]
    decide
  · simp [descReplyChunks, mpChunkLoop, OFPMPF_REPLY_MORE]

/-- C8 (amended): when `PIPELINE_TABLES` is a multiple of 16 and at least
64, the table-features reply consists of chunks of exactly 8 tables and the
table-desc reply of chunks of exactly 16, each stream's payloads concatenate
to tables `0..N-1` exactly once in order, and `REPLY_MORE` is set on every
chunk except the final one, which has flags 0.  (The claim as stated assumed
only a multiple of 8, which the desc stream's 16-wide chunking violates.) -/
theorem multipart_reply_chunking (pl : Pipeline) (maxEntries N : Nat)
    (h16 : 16 ∣ N) (h64 : 64 ≤ N) :
    (∀ c ∈ featuresReplyChunks pl N, c.payload.length = 8) ∧
    ((featuresReplyChunks pl N).map fun c =>
      c.payload.map Prod.fst).flatten = List.range N ∧
    (∀ c ∈ (featuresReplyChunks pl N).dropLast,
      c.flags = OFPMPF_REPLY_MORE) ∧
    ((featuresReplyChunks pl N).getLast?).map MpChunk.flags = some 0 ∧
    (∀ c ∈ descReplyChunks pl maxEntries N, c.payload.length = 16) ∧
    ((descReplyChunks pl maxEntries N).map fun c =>
      c.payload.map Prod.fst).flatten = List.range N ∧
    (∀ c ∈ (descReplyChunks pl maxEntries N).dropLast,
      c.flags = OFPMPF_REPLY_MORE) ∧
    ((descReplyChunks pl maxEntries N).getLast?).map MpChunk.flags =
      some 0 := by
  have h8 : (8 : Nat) ∣ N := dvd_trans (by norm_num) h16
  have hN0 : 0 < N := by omega
  have hff := mpChunkLoop_flags (fun i => (i, (pl.tables i).features)) 7 N N 0
    (by omega) hN0 (by simpa using h8)
  have hfs := mpChunkLoop_sizes (fun i => (i, (pl.tables i).features)) 7 N N 0
    (by omega)
  have hdf := mpChunkLoop_flags
    (fun i => (i, emitDesc maxEntries (pl.tables i))) 15 N N 0
    (by omega) hN0 (by simpa using h16)
  have hds := mpChunkLoop_sizes
    (fun i => (i, emitDesc maxEntries (pl.tables i))) 15 N N 0 (by omega)
  exact ⟨fun c hc => hfs c hc,
    mpChunkLoop_cover_fst (fun i => (pl.tables i).features) 7 N hN0
      (by simpa using h8),
    hff.1, hff.2,
    fun c hc => hds c hc,
    mpChunkLoop_cover_fst (fun i => emitDesc maxEntries (pl.tables i)) 15 N
      hN0 (by simpa using h16),
    hdf.1, hdf.2⟩

/-- Witness for the amended C8 at `N = 64` (the build value of
`PIPELINE_TABLES`). -/
theorem multipart_reply_chunking_witness :
    (16 : Nat) ∣ 64 ∧ (64 : Nat) ≤ 64 ∧
    ((featuresReplyChunks c10pl 64).map fun c =>
      c.payload.map Prod.fst).flatten = List.range 64 ∧
    ((descReplyChunks c10pl 100 64).map fun c =>
      c.payload.map Prod.fst).flatten = List.range 64 :=
  ⟨by norm_num, by norm_num,
   (multipart_reply_chunking c10pl 100 64 (by norm_num) (by norm_num)).2.1,
   (multipart_reply_chunking c10pl 100 64 (by norm_num)
     (by norm_num)).2.2.2.2.2.1⟩

/-- In an emitted table description of a table whose config carries
`OFPTC_VACANCY_EVENTS`, every VACANCY property holds the freshly computed
free-percentage. -/
theorem emitDesc_vacancy (maxEntries : Nat) (t : FlowTable)
    (hflag : t.desc.config &&& OFPTC_VACANCY_EVENTS ≠ 0) :
    ∀ p ∈ (emitDesc maxEntries t).properties, p.type = OFPTMPT_VACANCY →
      p.vacancy = (maxEntries - t.active_count) * 100 / maxEntries := by
  intro p hp htype
  rw [emitDesc] at hp
  simp only [List.mem_map] at hp
  obtain ⟨q, hq, rfl⟩ := hp
  rw [if_pos hflag] at htype ⊢
  by_cases ht : q.type = OFPTMPT_VACANCY
  · rw [if_pos ht]
  · rw [if_neg ht] at htype ⊢
    exact absurd htype ht

/-- C10 (amended): in every table-desc multipart reply, for every table
whose `desc.config` has `OFPTC_VACANCY_EVENTS`, each VACANCY property of the
emitted description carries `(maxEntries - active_count) * 100 / maxEntries`
computed from the live `active_count`. -/
theorem table_desc_vacancy_recompute (pl : Pipeline) (maxEntries N : Nat) :
    ∀ c ∈ descReplyChunks pl maxEntries N, ∀ x ∈ c.payload,
      (pl.tables x.1).desc.config &&& OFPTC_VACANCY_EVENTS ≠ 0 →
      ∀ p ∈ x.2.properties, p.type = OFPTMPT_VACANCY →
        p.vacancy =
          (maxEntries - (pl.tables x.1).active_count) * 100 / maxEntries := by
  intro c hc x hx hflag p hp htype
  obtain ⟨i, hxi⟩ := mpChunkLoop_payload_mem
    (fun i => (i, emitDesc maxEntries (pl.tables i))) 15 N N 0 (by omega)
    c hc x hx
  subst hxi
  exact emitDesc_vacancy maxEntries (pl.tables i) hflag p hp htype

/-- C10 counterexample: a table whose config has no flags keeps its stale
stored vacancy (7) in the emitted reply although the live free-percentage is
100 — the recomputation is not unconditional. -/
theorem table_desc_vacancy_stale_without_flag :
    (c10pl.tables 0).desc.config = 0 ∧
    (100 - (c10pl.tables 0).active_count) * 100 / 100 = 100 ∧
    (descReplyChunks c10pl 100 16).headI.payload.headI.1 = 0 ∧
    (descReplyChunks c10pl 100 16).headI.payload.headI.2.properties.headI
      = ⟨OFPTMPT_VACANCY, 5, 50, 7, false⟩ ∧
    (7 : Nat) ≠ 100 := by
  refine ⟨rfl, by decide, ?_, ?_, by decide⟩ <;>
    (simp [descReplyChunks, mpChunkLoop, emitDesc, c10pl, c10table,
       OFPTC_VACANCY_EVENTS, List.headI] <;> decide)

/-- Witness for the amended C10: with `OFPTC_VACANCY_EVENTS` set and 20 of
100 entries used, the emitted VACANCY property carries 80. -/
theorem table_desc_vacancy_recompute_witness :
    c10chunk ∈ descReplyChunks c10flagpl 100 16 ∧
    (0, emitDesc 100 (c10flagpl.tables 0)) ∈ c10chunk.payload ∧
    (c10flagpl.tables 0).desc.config &&& OFPTC_VACANCY_EVENTS ≠ 0 ∧
    (⟨OFPTMPT_VACANCY, 5, 50, 80, false⟩ : TableModProp) ∈
      (emitDesc 100 (c10flagpl.tables 0)).properties ∧
    (80 : Nat) = (100 - (c10flagpl.tables 0).active_count) * 100 / 100 := by
  have hmem : c10chunk ∈ descReplyChunks c10flagpl 100 16 := by
    simp [descReplyChunks, mpChunkLoop, c10chunk]
  have hpm : (0, emitDesc 100 (c10flagpl.tables 0)) ∈ c10chunk.payload :=
    List.mem_map_of_mem _ (by simp)
  refine ⟨hmem, hpm, by decide, by decide, ?_⟩
  exact table_desc_vacancy_recompute c10flagpl 100 16 c10chunk hmem
    (0, emitDesc 100 (c10flagpl.tables 0)) hpm (by decide)
    ⟨OFPTMPT_VACANCY, 5, 50, 80, false⟩ (by decide) (by decide)

end Of14
